import Mathlib

/-!
# slock: lock acquisition and the authentication loop

A shallow embedding of `src/slock.c` (functions `readpw`, `lockscreen` and the
tail of `main`), followed by theorems about it.

Conventions of the embedding:

* a `char` is a `Byte` (`Fin 256`, the value of the byte as unsigned char);
* `char passwd[256]` is a `List Byte`; every state built by the code keeps its
  length at 256 (lemma `readpw_inv`);
* `unsigned int len` is a `Nat`, with `% 2 ^ 32` at the one addition the code
  performs on it;
* what the X server, libc and `crypt` answer is an explicit parameter;
* the calls the program makes to Xlib are recorded as a list of `XCall`.
-/

namespace Slock

/-! ## Constants of the X11 headers -/

abbrev Byte := Fin 256

/-- Keysym `XK_BackSpace` of `<X11/keysymdef.h>`. -/
def XK_BackSpace : Nat := 0xff08

/-- Keysym `XK_Return` of `<X11/keysymdef.h>`. -/
def XK_Return : Nat := 0xff0d

/-- Keysym `XK_Escape` of `<X11/keysymdef.h>`. -/
def XK_Escape : Nat := 0xff1b

/-- Keysym `XK_Select` of `<X11/keysymdef.h>`. -/
def XK_Select : Nat := 0xff60

/-- Keysym `XK_Break` of `<X11/keysymdef.h>`. -/
def XK_Break : Nat := 0xff6b

/-- Keysym `XK_KP_Space` of `<X11/keysymdef.h>`. -/
def XK_KP_Space : Nat := 0xff80

/-- Keysym `XK_KP_Enter` of `<X11/keysymdef.h>`. -/
def XK_KP_Enter : Nat := 0xff8d

/-- Keysym `XK_KP_F1` of `<X11/keysymdef.h>`. -/
def XK_KP_F1 : Nat := 0xff91

/-- Keysym `XK_KP_F4` of `<X11/keysymdef.h>`. -/
def XK_KP_F4 : Nat := 0xff94

/-- Keysym `XK_KP_0` of `<X11/keysymdef.h>`. -/
def XK_KP_0 : Nat := 0xffb0

/-- Keysym `XK_KP_9` of `<X11/keysymdef.h>`. -/
def XK_KP_9 : Nat := 0xffb9

/-- Keysym `XK_KP_Equal` of `<X11/keysymdef.h>`. -/
def XK_KP_Equal : Nat := 0xffbd

/-- Keysym `XK_F1` of `<X11/keysymdef.h>`. -/
def XK_F1 : Nat := 0xffbe

/-- Keysym `XK_F35` of `<X11/keysymdef.h>`. -/
def XK_F35 : Nat := 0xffe0

/-- Keysym `XK_0` of `<X11/keysymdef.h>`. -/
def XK_0 : Nat := 0x30

/-- Macro `IsKeypadKey` of `<X11/Xutil.h>`. -/
def IsKeypadKey (ksym : Nat) : Bool :=
  decide (XK_KP_Space ≤ ksym) && decide (ksym ≤ XK_KP_Equal)

/-- Macro `IsPrivateKeypadKey` of `<X11/Xutil.h>`. -/
def IsPrivateKeypadKey (ksym : Nat) : Bool :=
  decide (0x11000000 ≤ ksym) && decide (ksym ≤ 0x1100FFFF)

/-- Macro `IsPFKey` of `<X11/Xutil.h>`. -/
def IsPFKey (ksym : Nat) : Bool :=
  decide (XK_KP_F1 ≤ ksym) && decide (ksym ≤ XK_KP_F4)

/-- Macro `IsFunctionKey` of `<X11/Xutil.h>`. -/
def IsFunctionKey (ksym : Nat) : Bool :=
  decide (XK_F1 ≤ ksym) && decide (ksym ≤ XK_F35)

/-- Macro `IsMiscFunctionKey` of `<X11/Xutil.h>`. -/
def IsMiscFunctionKey (ksym : Nat) : Bool :=
  decide (XK_Select ≤ ksym) && decide (ksym ≤ XK_Break)

/-- Grab status `GrabSuccess` of `<X11/X.h>`. -/
def GrabSuccess : Int := 0

/-- Grab status `AlreadyGrabbed` of `<X11/X.h>`. -/
def AlreadyGrabbed : Int := 1



/-- Rotation `RR_Rotate_90` of `<X11/extensions/randr.h>`. -/
def RR_Rotate_90 : Nat := 2


/-- Rotation `RR_Rotate_270` of `<X11/extensions/randr.h>`. -/
def RR_Rotate_270 : Nat := 8
/-- Reflection `RR_Reflect_X` of `<X11/extensions/randr.h>`; the `rotation`
field of a notification holds a rotation and the reflections in force. -/
def RR_Reflect_X : Nat := 16
/-- Reflection `RR_Reflect_Y` of `<X11/extensions/randr.h>`. -/
def RR_Reflect_Y : Nat := 32
/-- Grab status `GrabNotViewable` of `<X11/X.h>`. -/
def GrabNotViewable : Int := 3

/-! ## libc -/

/-- The bytes of a C string stored in `mem`: everything before the first NUL. -/
def cstr (mem : List Byte) : List Byte :=
  mem.takeWhile (fun b => decide (b ≠ 0))

/-- The libc `strcmp` on two byte sequences, each read as a C string (an
implicit NUL follows the last byte): the difference of the first pair of bytes
that differ, as unsigned chars, and 0 when both strings end together. -/
def strcmp : List Byte → List Byte → Int
  | [], [] => 0
  | [], b :: _ => 0 - (b.val : Int)
  | a :: _, [] => (a.val : Int)
  | a :: as, b :: bs =>
    if a ≠ b then (a.val : Int) - (b.val : Int)
    else if a = 0 then 0
    else strcmp as bs

/-- The libc `iscntrl` in the "C" locale (slock never calls `setlocale`), on
the value of the byte: the codes below 0x20 and DEL. -/
def iscntrl (c : Byte) : Bool :=
  decide (c.val < 32) || decide (c.val = 127)

/-- The libc `explicit_bzero(&passwd, sizeof(passwd))` on `char passwd[256]`. -/
def bzeroPasswd : List Byte :=
  List.replicate 256 0

/-- The libc `memcpy(passwd + len, buf, num)`. -/
def memcpyAt (passwd : List Byte) (len : Nat) (buf : List Byte) (num : Nat) : List Byte :=
  passwd.take len ++ buf.take num ++ passwd.drop (len + num)

/-! ## Data model of `readpw` -/

/-- The anonymous enum `INIT, INPUT, FAILED` (`NUMCOLS` is never a value). -/
inductive Color where
  | INIT
  | INPUT
  | FAILED
  deriving DecidableEq, Repr

/-- The fields of `struct lock` that `readpw` and `lockscreen` read or write.
Handles (windows, images) are numbers. -/
structure Lock where
  screen : Int
  root : Nat
  win : Nat
  width : Int
  height : Int
  deriving DecidableEq, Repr

/-- An event returned by `XNextEvent`, by the branch of `readpw` that handles
it. `keyPress` carries what `XLookupString` reports for the event: the keysym
and the string bound to the key. `screenChange` is an event whose type is
`rr->evbase + RRScreenChangeNotify` (extension event codes start at 64, so it
is neither `KeyPress` nor `KeyRelease`), with the fields of
`XRRScreenChangeNotifyEvent` the code reads. -/
inductive Event where
  | keyPress (ksym : Nat) (str : List Byte)
  | keyRelease
  | screenChange (window : Nat) (rotation : Nat) (width height : Int)
  | other
  deriving DecidableEq, Repr

/-- The Xlib and stderr calls `readpw` makes. -/
inductive XCall where
  | XBell
  | cryptFailed
  | XClearArea (win : Nat) (x y w h : Int)
  | XPutImageTyping (win : Nat) (x y w h : Int)
  | XPutImageError (win : Nat) (x y w h : Int)
  | XResizeWindow (win : Nat) (w h : Int)
  | XClearWindow (win : Nat)
  | XRaiseWindow (win : Nat)
  deriving DecidableEq, Repr

/-- What `readpw` is given and does not change: the stored hash, `crypt`
(`none` is a NULL result), `rr->active`, and two values of headers that are
not part of the sources at hand: `failonclear` of `config.h` and `INFO_WIDTH`
of `lockscreen-data.h`. -/
structure Env where
  hash : List Byte
  crypt : List Byte → List Byte → Option (List Byte)
  rrActive : Bool
  failonclear : Bool
  INFO_WIDTH : Int

/-- The local variables of `readpw` together with the `locks` array. -/
structure State where
  passwd : List Byte
  len : Nat
  running : Bool
  failure : Bool
  oldc : Color
  locks : List Lock

/-- What one turn of the loop of `readpw` does to the outside: the calls it
makes, and `redraw = some c` when the block under
`if (running && oldc != color)` ran with `color = c`. -/
structure Out where
  calls : List XCall
  redraw : Option Color
  deriving DecidableEq

/-- The result of `XLookupString(&ev.xkey, buf, sizeof(buf), &ksym, 0)` on a
zeroed `char buf[32]`: the returned count. Xlib truncates the string to the
size of the buffer. -/
def lookupNum (str : List Byte) : Nat :=
  min str.length 32

/-- The content of `buf` after `explicit_bzero` and `XLookupString`. -/
def lookupBuf (str : List Byte) : List Byte :=
  str.take 32 ++ List.replicate (32 - lookupNum str) 0

/-- Lines 174-184: keypad Enter becomes Return, keypad digits become digits. -/
def normalize (ksym : Nat) : Nat :=
  if IsKeypadKey ksym then
    if ksym = XK_KP_Enter then XK_Return
    else if XK_KP_0 ≤ ksym ∧ ksym ≤ XK_KP_9 then (ksym - XK_KP_0) + XK_0
    else ksym
  else ksym

/-- Line 185: the key classes the loop skips with `continue`. -/
def ignored (ksym : Nat) : Bool :=
  IsFunctionKey ksym || IsKeypadKey ksym || IsMiscFunctionKey ksym || IsPFKey ksym
    || IsPrivateKeypadKey ksym

/-- Line 229: the colour for the current length and failure flag. -/
def colorOf (env : Env) (len : Nat) (failure : Bool) : Color :=
  if len ≠ 0 then Color.INPUT
  else if failure || env.failonclear then Color.FAILED
  else Color.INIT

/-- Lines 233-260: the drawing call for one screen. The offsets are C `int`
divisions, which truncate. -/
def drawScreen (env : Env) (color : Color) (l : Lock) : XCall :=
  let x_offset := Int.tdiv (l.width - env.INFO_WIDTH) 2
  let y_offset := (l.height - env.INFO_WIDTH) - 30
  match color with
  | Color.INPUT => XCall.XPutImageTyping l.win x_offset y_offset env.INFO_WIDTH env.INFO_WIDTH
  | Color.FAILED => XCall.XPutImageError l.win x_offset y_offset env.INFO_WIDTH env.INFO_WIDTH
  | Color.INIT => XCall.XClearArea l.win x_offset y_offset env.INFO_WIDTH env.INFO_WIDTH

/-- Lines 191-209: `case XK_Return`. The string is terminated, hashed and
compared; `running` is left as it is when `crypt` fails. -/
def onReturn (env : Env) (s : State) : State × List XCall :=
  let passwd1 := s.passwd.set s.len 0
  let r : Bool × List XCall :=
    match env.crypt (cstr passwd1) env.hash with
    | none => (s.running, [XCall.cryptFailed])
    | some inputhash => (decide (strcmp inputhash env.hash ≠ 0), [])
  let bell : List XCall := if r.1 then [XCall.XBell] else []
  ({ s with passwd := bzeroPasswd, len := 0, running := r.1,
            failure := if r.1 then true else s.failure }, r.2 ++ bell)

/-- Lines 210-213: `case XK_Escape`. -/
def onEscape (s : State) : State × List XCall :=
  ({ s with passwd := bzeroPasswd, len := 0 }, [])

/-- Lines 214-219: `case XK_BackSpace`. -/
def onBackSpace (s : State) : State × List XCall :=
  if s.len ≠ 0 then
    ({ s with passwd := s.passwd.set (s.len - 1) 0, len := s.len - 1 }, [])
  else (s, [])

/-- Line 221: the condition under which the looked-up bytes are stored.
`len + num` is an `unsigned int` sum. -/
def accepts (len : Nat) (str : List Byte) : Bool :=
  decide (lookupNum str ≠ 0) && !iscntrl ((lookupBuf str).headD 0)
    && decide ((len + lookupNum str) % 2 ^ 32 < 256)

/-- Lines 220-226: `default`. -/
def onOther (s : State) (str : List Byte) : State × List XCall :=
  if accepts s.len str then
    ({ s with passwd := memcpyAt s.passwd s.len (lookupBuf str) (lookupNum str),
              len := (s.len + lookupNum str) % 2 ^ 32 }, [])
  else (s, [])

/-- Lines 189-227: the `switch (ksym)`, on the normalised keysym. Returns the
new local variables and the calls made. -/
def switchKey (env : Env) (s : State) (ksym : Nat) (str : List Byte) : State × List XCall :=
  if ksym = XK_Return then onReturn env s
  else if ksym = XK_Escape then onEscape s
  else if ksym = XK_BackSpace then onBackSpace s
  else onOther s str

/-- Lines 168-263: the `KeyPress` branch. -/
def onKeyPress (env : Env) (s : State) (ksym0 : Nat) (str : List Byte) : State × Out :=
  let ksym := normalize ksym0
  if ignored ksym then (s, ⟨[], none⟩)
  else
    let r := switchKey env s ksym str
    let color := colorOf env r.1.len r.1.failure
    if r.1.running ∧ r.1.oldc ≠ color then
      ({ r.1 with oldc := color }, ⟨r.2 ++ r.1.locks.map (drawScreen env color), some color⟩)
    else (r.1, ⟨r.2, none⟩)

/-- Lines 271-290: the first lock whose window is the event's is resized and
its stored geometry replaced; the scan stops there (`break`). -/
def resizeLocks (window rotation : Nat) (width height : Int) :
    List Lock → List Lock × List XCall
  | [] => ([], [])
  | l :: ls =>
    if l.win = window then
      if rotation = RR_Rotate_90 ∨ rotation = RR_Rotate_270 then
        ({ l with width := height, height := width } :: ls,
          [XCall.XResizeWindow l.win height width, XCall.XClearWindow l.win])
      else
        ({ l with width := width, height := height } :: ls,
          [XCall.XResizeWindow l.win width height, XCall.XClearWindow l.win])
    else
      let r := resizeLocks window rotation width height ls
      (l :: r.1, r.2)

/-- Lines 167-298: the body of the `while` loop of `readpw` on one event. -/
def body (env : Env) (s : State) : Event → State × Out
  | Event.keyPress ksym str => onKeyPress env s ksym str
  | Event.keyRelease => (s, ⟨[], none⟩)
  | Event.screenChange window rotation width height =>
    if env.rrActive then
      let r := resizeLocks window rotation width height s.locks
      ({ s with locks := r.1 }, ⟨r.2, none⟩)
    else (s, ⟨s.locks.map (fun l => XCall.XRaiseWindow l.win), none⟩)
  | Event.other => (s, ⟨s.locks.map (fun l => XCall.XRaiseWindow l.win), none⟩)

/-- Lines 158-163: the locals of `readpw` on entry. `passwd` is not
initialised by the code: `stack` is whatever the 256 bytes hold. -/
def initState (stack : Fin 256 → Byte) (locks : List Lock) : State :=
  { passwd := List.ofFn stack, len := 0, running := true, failure := false,
    oldc := Color.INIT, locks := locks }

/-- The `while (running && !XNextEvent(dpy, &ev))` loop from state `s` on the
events the server delivers, with the outputs of the turns taken so far in
`outs` (oldest first). `XNextEvent` returns 0 for every event delivered. The
loop is left when `running` is 0; when the events run out the process blocks
in `XNextEvent`, and the state it blocks in is returned. -/
def loop (env : Env) : State → List Out → List Event → State × List Out
  | s, outs, [] => (s, outs)
  | s, outs, ev :: evs =>
    if s.running then
      loop env (body env s ev).1 (outs ++ [(body env s ev).2]) evs
    else (s, outs)

/-- The function `readpw` on the events `evs`. -/
def readpw (env : Env) (stack : Fin 256 → Byte) (locks : List Lock) (evs : List Event) :
    State × List Out :=
  loop env (initState stack locks) [] evs

/-! ## `lockscreen` -/

/-- What the X server and libc answer while the screens are locked:
`ScreenCount`, the root window and the window created for a screen, the
geometry `XGetWindowAttributes` reports, whether `malloc` succeeds, and the
result of the n-th `XGrabPointer` and of the n-th `XGrabKeyboard` request made
for a screen (n counted from 0). -/
structure Display where
  nscreens : Nat
  root : Int → Nat
  newWindow : Int → Nat
  attrsWidth : Int → Int
  attrsHeight : Int → Int
  mallocOk : Int → Bool
  ptGrab : Int → Nat → Int
  kbGrab : Int → Nat → Int

/-- The variables `ptgrab` and `kbgrab` of `lockscreen`, with the number of
requests of each kind made so far. -/
structure Grabs where
  ptgrab : Int
  kbgrab : Int
  ptcalls : Nat
  kbcalls : Nat
  deriving DecidableEq, Repr

/-- Line 347: `int ptgrab = -1, kbgrab = -1;`. -/
def grabs0 : Grabs :=
  { ptgrab := -1, kbgrab := -1, ptcalls := 0, kbcalls := 0 }

/-- Lines 350-358: one attempt; each grab is requested unless it already
succeeded. -/
def grabOnce (pt kb : Nat → Int) (g : Grabs) : Grabs :=
  let g1 : Grabs :=
    if g.ptgrab ≠ GrabSuccess then
      { g with ptgrab := pt g.ptcalls, ptcalls := g.ptcalls + 1 }
    else g
  if g1.kbgrab ≠ GrabSuccess then
    { g1 with kbgrab := kb g1.kbcalls, kbcalls := g1.kbcalls + 1 }
  else g1

/-- Line 361: both grabs succeeded. -/
def bothGrabbed (g : Grabs) : Prop :=
  g.ptgrab = GrabSuccess ∧ g.kbgrab = GrabSuccess

instance (g : Grabs) : Decidable (bothGrabbed g) := by
  unfold bothGrabbed
  infer_instance

/-- Line 384: one of the grabs failed with something else than
`AlreadyGrabbed`. -/
def grabError (g : Grabs) : Prop :=
  (g.ptgrab ≠ AlreadyGrabbed ∧ g.ptgrab ≠ GrabSuccess) ∨
    (g.kbgrab ≠ AlreadyGrabbed ∧ g.kbgrab ≠ GrabSuccess)

instance (g : Grabs) : Decidable (grabError g) := by
  unfold grabError
  infer_instance

/-- How the retry loop of `lockscreen` ended: whether the success branch
returned the lock, the number of attempts made (turns of the loop entered),
the number of `usleep(100000)` calls, and the grab variables at the end. -/
structure GrabRun where
  locked : Bool
  attempts : Nat
  sleeps : Nat
  grabs : Grabs
  deriving DecidableEq, Repr

/-- Lines 348-390: `for (int i = 0; i < 6; i += 1)`. The first argument is
`6 - i`, the number of turns left. -/
def grabLoop (pt kb : Nat → Int) : Nat → Nat → Grabs → GrabRun
  | 0, i, g => { locked := false, attempts := i, sleeps := i, grabs := g }
  | left + 1, i, g =>
    let g1 := grabOnce pt kb g
    if bothGrabbed g1 then
      { locked := true, attempts := i + 1, sleeps := i, grabs := g1 }
    else if grabError g1 then
      { locked := false, attempts := i + 1, sleeps := i, grabs := g1 }
    else grabLoop pt kb left (i + 1) g1

/-- What `lockscreen` returns and reports: the lock (`none` is NULL), the run
of the retry loop, and the two messages of lines 393-400. -/
structure LockscreenResult where
  lock : Option Lock
  run : GrabRun
  pointerMsg : Bool
  keyboardMsg : Bool
  deriving DecidableEq, Repr

/-- The function `lockscreen`. `dpy = none` is a NULL display. The creation of
the window, cursor and images, and the calls of the success branch
(`XMapRaised`, `XRRSelectInput`, `XSelectInput`, `XPutImage`) do not bear on
what is returned and are left out, with the argument `rr` that only they
read. -/
def lockscreen (dpy : Option Display) (screen : Int) : LockscreenResult :=
  let norun : GrabRun := { locked := false, attempts := 0, sleeps := 0, grabs := grabs0 }
  match dpy with
  | none => { lock := none, run := norun, pointerMsg := false, keyboardMsg := false }
  | some d =>
    if screen < 0 then
      { lock := none, run := norun, pointerMsg := false, keyboardMsg := false }
    else if d.mallocOk screen = false then
      { lock := none, run := norun, pointerMsg := false, keyboardMsg := false }
    else
      let lock : Lock :=
        { screen := screen, root := d.root screen, win := d.newWindow screen,
          width := d.attrsWidth screen, height := d.attrsHeight screen }
      let r := grabLoop (d.ptGrab screen) (d.kbGrab screen) 6 0 grabs0
      if r.locked then
        { lock := some lock, run := r, pointerMsg := false, keyboardMsg := false }
      else
        { lock := none, run := r,
          pointerMsg := decide (r.grabs.ptgrab ≠ GrabSuccess),
          keyboardMsg := decide (r.grabs.kbgrab ≠ GrabSuccess) }

/-- The grab variables after `k` attempts of the retry loop on the results
`pt` and `kb`, were the loop to run that long. -/
def afterAttempts (pt kb : Nat → Int) (k : Nat) : Grabs :=
  Nat.iterate (grabOnce pt kb) k grabs0

/-! ## The tail of `main` (lines 478-522) -/

/-- What the tail of `main` depends on: the display, whether `calloc`
succeeds, `argc` after option parsing, and, when a command is given, what
`fork` returns in this process, what `close` returns in the child and whether
`execvp` replaces the child. -/
structure Proc where
  dpy : Display
  callocOk : Bool
  argc : Int
  fork : Int
  close : Int
  execOk : Bool

/-- How the process goes on: it exits with a status, it is replaced by the
post-lock command, or it calls `readpw` with the locks. -/
inductive MainResult where
  | exit (status : Int)
  | execvp
  | readpw (locks : List Lock)
  deriving DecidableEq, Repr

/-- Lines 483-493: lock the screens from `s` on, stopping at the first one
that fails (`break`). The first argument is `nscreens - s`. The result holds
the non-NULL entries of `locks`, so its length is `nlocks`. -/
def lockScreens (d : Display) : Nat → Nat → List Lock
  | 0, _ => []
  | left + 1, s =>
    match (lockscreen (some d) (s : Int)).lock with
    | some l => l :: lockScreens d left (s + 1)
    | none => []

/-- Lines 478-522 of `main`. -/
def mainTail (p : Proc) : MainResult :=
  let nscreens := p.dpy.nscreens
  if p.callocOk = false then MainResult.exit 1
  else
    let locks := lockScreens p.dpy nscreens 0
    let nlocks := locks.length
    if nlocks ≠ nscreens then MainResult.exit 1
    else if 0 < p.argc then
      if p.fork = -1 then MainResult.exit 1
      else if p.fork = 0 then
        if p.close < 0 then MainResult.exit 1
        else if p.execOk then MainResult.execvp
        else MainResult.exit 1
      else MainResult.readpw locks
    else MainResult.readpw locks

/-- Whether the process entered the authentication loop. -/
def MainResult.entersReadpw : MainResult → Bool
  | MainResult.readpw _ => true
  | _ => false

/-! ## Invariants and the words of the specification -/

/-- The buffer has its 256 bytes and the length indexes one of them. -/
def WF (s : State) : Prop :=
  s.passwd.length = 256 ∧ s.len < 256

/-- The VisualState of the specification, as a colour (IDLE is `INIT`, TYPING
is `INPUT`): TYPING when the length is positive, FAILED when it is 0 and the
failure flag or the failonclear option is set, IDLE otherwise. -/
def visualState (typing failed failonclear : Bool) : Color :=
  if typing then Color.INPUT
  else if failed || failonclear then Color.FAILED
  else Color.INIT

/-- The state drawn by the most recent redraw among the turns `outs` (oldest
first); IDLE when there was none. -/
def lastDrawn (outs : List Out) : Color :=
  outs.foldl (fun c o => o.redraw.getD c) Color.INIT

/-- What the loop keeps true about the drawn colour: `oldc` is the state last
drawn, and while the loop runs it is the colour of the current state, unless
nothing was drawn yet and the state is still the initial one. -/
def DrawInv (env : Env) (s : State) (outs : List Out) : Prop :=
  s.oldc = lastDrawn outs ∧
    (s.running = true →
      s.oldc = colorOf env s.len s.failure ∨
        ((∀ o ∈ outs, o.redraw = none) ∧ s.len = 0 ∧ s.failure = false))

/-- The geometry line 275-286 applies for a notification: swapped for a
quarter turn, as reported otherwise. -/
def appliedSize (rotation : Nat) (width height : Int) : Int × Int :=
  if rotation = RR_Rotate_90 ∨ rotation = RR_Rotate_270 then (height, width)
  else (width, height)

/-- The text typed since the last clear, after one more event, as the claim
words it: a Return or an Escape empties it, a BackSpace removes its last byte
if it has one, an accepted printable input (at least one byte, the first not a
control character, fitting with the text in the buffer with room for the
terminator) appends its bytes; skipped keys and other events leave it. -/
def typedStep (text : List Byte) : Event → List Byte
  | Event.keyPress ksym str =>
    if ignored (normalize ksym) then text
    else if normalize ksym = XK_Return ∨ normalize ksym = XK_Escape then []
    else if normalize ksym = XK_BackSpace then text.dropLast
    else if 1 ≤ lookupNum str ∧ iscntrl (str.headD 0) = false ∧
        text.length + lookupNum str < 256 then text ++ str.take 32
    else text
  | _ => text

/-- The text typed since the last Return or Escape (or the start) in `evs`. -/
def typedText (evs : List Event) : List Byte :=
  evs.foldl typedStep []

/-! ## Inputs for the examples -/

/-- A display with one screen on which every grab request succeeds. -/
def oneScreen : Display :=
  { nscreens := 1, root := fun _ => 1, newWindow := fun _ => 2,
    attrsWidth := fun _ => 1920, attrsHeight := fun _ => 1080,
    mallocOk := fun _ => true,
    ptGrab := fun _ _ => GrabSuccess, kbGrab := fun _ _ => GrabSuccess }

/-- A display with one screen whose pointer is held by another client for
good, while the keyboard is granted at once. -/
def pointerBusy : Display :=
  { nscreens := 1, root := fun _ => 1, newWindow := fun _ => 2,
    attrsWidth := fun _ => 1920, attrsHeight := fun _ => 1080,
    mallocOk := fun _ => true,
    ptGrab := fun _ _ => AlreadyGrabbed, kbGrab := fun _ _ => GrabSuccess }

/-- A display with one screen whose pointer is granted at the third request
and whose keyboard is granted at the second. -/
def pointerLate : Display :=
  { nscreens := 1, root := fun _ => 1, newWindow := fun _ => 2,
    attrsWidth := fun _ => 1920, attrsHeight := fun _ => 1080,
    mallocOk := fun _ => true,
    ptGrab := fun _ n => if n < 2 then AlreadyGrabbed else GrabSuccess,
    kbGrab := fun _ n => if n < 1 then AlreadyGrabbed else GrabSuccess }

/-- A display with one screen whose keyboard grab fails with
`GrabNotViewable` while the pointer is held by another client. -/
def keyboardRefused : Display :=
  { nscreens := 1, root := fun _ => 1, newWindow := fun _ => 2,
    attrsWidth := fun _ => 1920, attrsHeight := fun _ => 1080,
    mallocOk := fun _ => true,
    ptGrab := fun _ _ => AlreadyGrabbed, kbGrab := fun _ _ => GrabNotViewable }

/-- A run of slock with a post-lock command (`argc = 1`) on `oneScreen` in
which `fork` fails. -/
def forkFails : Proc :=
  { dpy := oneScreen, callocOk := true, argc := 1, fork := -1, close := 0, execOk := true }

/-- A stored hash and a `crypt` for the examples: the password "a" hashes to
the stored hash, every other input to something else. -/
def demoEnv (failonclear : Bool) : Env :=
  { hash := [36, 49],
    crypt := fun key salt => if key = [97] then some salt else some [33],
    rrActive := true, failonclear := failonclear, INFO_WIDTH := 64 }

/-- The key "a". -/
def keyA : Event := Event.keyPress 0x61 [97]

/-- The Return key. -/
def keyReturn : Event := Event.keyPress XK_Return [13]

/-- The BackSpace key. -/
def keyBackSpace : Event := Event.keyPress XK_BackSpace [8]

/-- The function key F1, which has no string. -/
def keyF1 : Event := Event.keyPress XK_F1 []

/-- A stack that happens to hold zeros. -/
def zeroStack : Fin 256 → Byte := fun _ => 0

/-- A lock of 1920 by 1080 with window 5. -/
def wideLock : Lock :=
  { screen := 0, root := 1, win := 5, width := 1920, height := 1080 }

/-! ## Lemmas on the libc models -/

theorem strcmp_eq_zero_iff (a b : List Byte) : strcmp a b = 0 ↔ cstr a = cstr b := by
  induction a generalizing b with
  | nil =>
    cases b with
    | nil => simp [strcmp, cstr]
    | cons b bs =>
      by_cases hb : b = 0
      · subst hb; simp [strcmp, cstr]
      · have : (b.val : Int) ≠ 0 := by
          intro h; apply hb; ext; exact_mod_cast h
        simp [strcmp, cstr, hb, List.takeWhile_cons]
        omega
  | cons a as ih =>
    cases b with
    | nil =>
      by_cases ha : a = 0
      · subst ha; simp [strcmp, cstr]
      · have : (a.val : Int) ≠ 0 := by
          intro h; apply ha; ext; exact_mod_cast h
        simp [strcmp, cstr, ha, List.takeWhile_cons]
        omega
    | cons b bs =>
      by_cases hab : a = b
      · subst hab
        by_cases ha : a = 0
        · subst ha; simp [strcmp, cstr]
        · have := ih bs
          simp only [cstr] at this
          simp [strcmp, cstr, ha, List.takeWhile_cons, this]
      · have hv : (a.val : Int) - (b.val : Int) ≠ 0 := by
          intro h; apply hab; ext; omega
        simp only [strcmp, cstr, hab, ne_eq, not_false_eq_true, if_true, hv, false_iff]
        by_cases ha : a = 0 <;> by_cases hb : b = 0 <;> simp [List.takeWhile_cons, ha, hb, hab]
        exact hab (ha.trans hb.symm)

theorem lookupBuf_length (str : List Byte) : (lookupBuf str).length = 32 := by
  simp only [lookupBuf, lookupNum, List.length_append, List.length_take, List.length_replicate]
  omega

theorem lookupNum_le (str : List Byte) : lookupNum str ≤ 32 := by
  simp [lookupNum]

/-! ## Invariants of the loop of `readpw` -/

theorem onReturn_wf (env : Env) (s : State) : WF (onReturn env s).1 :=
  ⟨by simp only [onReturn, bzeroPasswd, List.length_replicate], by simp only [onReturn]; omega⟩

theorem onEscape_wf (s : State) : WF (onEscape s).1 :=
  ⟨by simp only [onEscape, bzeroPasswd, List.length_replicate], by simp only [onEscape]; omega⟩

theorem onBackSpace_wf (s : State) (h : WF s) : WF (onBackSpace s).1 := by
  obtain ⟨h1, h2⟩ := h
  unfold onBackSpace WF
  split_ifs with c
  · simp only [List.length_set]
    omega
  · exact ⟨h1, h2⟩

theorem accepts_fits (len : Nat) (str : List Byte) (hl : len < 256) :
    accepts len str = true ↔
      lookupNum str ≠ 0 ∧ iscntrl ((lookupBuf str).headD 0) = false ∧
        len + lookupNum str < 256 := by
  have hn := lookupNum_le str
  have e : (len + lookupNum str) % 2 ^ 32 = len + lookupNum str :=
    Nat.mod_eq_of_lt (by omega)
  simp only [accepts, e, Bool.and_eq_true, decide_eq_true_eq, Bool.not_eq_true', and_assoc]

theorem onOther_wf (s : State) (str : List Byte) (h : WF s) : WF (onOther s str).1 := by
  obtain ⟨h1, h2⟩ := h
  have hn := lookupNum_le str
  have hb := lookupBuf_length str
  unfold onOther WF
  split_ifs with c
  · rw [accepts_fits _ _ h2] at c
    obtain ⟨_, _, c⟩ := c
    have e : (s.len + lookupNum str) % 2 ^ 32 = s.len + lookupNum str :=
      Nat.mod_eq_of_lt (by omega)
    simp only [memcpyAt, List.length_append, List.length_take, List.length_drop, hb, h1, e]
    omega
  · exact ⟨h1, h2⟩

theorem switchKey_wf (env : Env) (s : State) (ksym : Nat) (str : List Byte) (h : WF s) :
    WF (switchKey env s ksym str).1 := by
  unfold switchKey
  split_ifs
  · exact onReturn_wf env s
  · exact onEscape_wf s
  · exact onBackSpace_wf s h
  · exact onOther_wf s str h

theorem onKeyPress_wf (env : Env) (s : State) (ksym : Nat) (str : List Byte) (h : WF s) :
    WF (onKeyPress env s ksym str).1 := by
  have hs := switchKey_wf env s (normalize ksym) str h
  unfold onKeyPress
  dsimp only
  split_ifs
  · exact h
  · exact hs
  · exact hs

theorem body_wf (env : Env) (s : State) (ev : Event) (h : WF s) : WF (body env s ev).1 := by
  cases ev with
  | keyPress ksym str => exact onKeyPress_wf env s ksym str h
  | keyRelease => exact h
  | screenChange window rotation width height =>
    unfold body
    dsimp only
    split_ifs
    · exact h
    · exact h
  | other => exact h

theorem loop_wf (env : Env) (evs : List Event) :
    ∀ (s : State) (outs : List Out), WF s → WF (loop env s outs evs).1 := by
  induction evs with
  | nil => intro s outs h; exact h
  | cons ev evs ih =>
    intro s outs h
    unfold loop
    split_ifs
    · exact ih _ _ (body_wf env s ev h)
    · exact h

theorem initState_wf (stack : Fin 256 → Byte) (locks : List Lock) : WF (initState stack locks) := by
  exact ⟨by simp only [initState, List.length_ofFn], by simp only [initState]; omega⟩

theorem readpw_inv (env : Env) (stack : Fin 256 → Byte) (locks : List Lock) (evs : List Event) :
    WF (readpw env stack locks evs).1 :=
  loop_wf env evs _ _ (initState_wf stack locks)

theorem loop_append (env : Env) (evs more : List Event) :
    ∀ (s : State) (outs : List Out),
      loop env s outs (evs ++ more) =
        loop env (loop env s outs evs).1 (loop env s outs evs).2 more := by
  induction evs with
  | nil => intro s outs; rfl
  | cons ev evs ih =>
    intro s outs
    by_cases hr : s.running = true
    · simp only [List.cons_append, loop, hr, if_true]
      exact ih _ _
    · simp only [List.cons_append, loop, hr]
      cases more with
      | nil => rfl
      | cons m ms => simp [loop, hr]

theorem readpw_snoc (env : Env) (stack : Fin 256 → Byte) (locks : List Lock)
    (evs : List Event) (ev : Event) (hr : (readpw env stack locks evs).1.running = true) :
    readpw env stack locks (evs ++ [ev]) =
      ((body env (readpw env stack locks evs).1 ev).1,
        (readpw env stack locks evs).2 ++ [(body env (readpw env stack locks evs).1 ev).2]) := by
  unfold readpw at hr ⊢
  rw [loop_append]
  simp [loop, hr]

/-! ## The exit of the loop -/

theorem onReturn_running (env : Env) (s : State) (hr : s.running = true) :
    (onReturn env s).1.running = false ↔
      ∃ h, env.crypt (cstr (s.passwd.set s.len 0)) env.hash = some h ∧ cstr h = cstr env.hash := by
  unfold onReturn
  dsimp only
  cases hc : env.crypt (cstr (s.passwd.set s.len 0)) env.hash with
  | none => simp [hr]
  | some h => simp [strcmp_eq_zero_iff]

theorem onEscape_running (s : State) : (onEscape s).1.running = s.running := rfl

theorem onBackSpace_running (s : State) : (onBackSpace s).1.running = s.running := by
  unfold onBackSpace
  split_ifs <;> rfl

theorem onOther_running (s : State) (str : List Byte) :
    (onOther s str).1.running = s.running := by
  unfold onOther
  split_ifs <;> rfl

theorem onKeyPress_running (env : Env) (s : State) (ksym : Nat) (str : List Byte) :
    (onKeyPress env s ksym str).1.running =
      if ignored (normalize ksym) then s.running
      else (switchKey env s (normalize ksym) str).1.running := by
  unfold onKeyPress
  dsimp only
  split_ifs <;> rfl

theorem switchKey_running (env : Env) (s : State) (ksym : Nat) (str : List Byte)
    (hk : ksym ≠ XK_Return) : (switchKey env s ksym str).1.running = s.running := by
  unfold switchKey
  rw [if_neg hk]
  split_ifs
  · exact onEscape_running s
  · exact onBackSpace_running s
  · exact onOther_running s str

theorem switchKey_Return (env : Env) (s : State) (str : List Byte) :
    switchKey env s XK_Return str = onReturn env s := by
  unfold switchKey
  rw [if_pos rfl]

theorem body_stops (env : Env) (s : State) (ev : Event) (hr : s.running = true) :
    (body env s ev).1.running = false ↔
      ∃ ksym str h, ev = Event.keyPress ksym str ∧ normalize ksym = XK_Return ∧
        env.crypt (cstr (s.passwd.set s.len 0)) env.hash = some h ∧
        cstr h = cstr env.hash := by
  cases ev with
  | keyPress ksym str =>
    have hb : (body env s (Event.keyPress ksym str)).1.running =
        if ignored (normalize ksym) then s.running
        else (switchKey env s (normalize ksym) str).1.running :=
      onKeyPress_running env s ksym str
    rw [hb]
    by_cases c1 : normalize ksym = XK_Return
    · have hi : ignored (normalize ksym) = false := by
        rw [c1]; decide
      rw [hi, c1, switchKey_Return, if_neg (by decide), onReturn_running env s hr]
      constructor
      · rintro ⟨h, h1, h2⟩
        exact ⟨ksym, str, h, rfl, c1, h1, h2⟩
      · rintro ⟨k, t, h, _, _, h1, h2⟩
        exact ⟨h, h1, h2⟩
    · have hkeep : (if ignored (normalize ksym) then s.running
          else (switchKey env s (normalize ksym) str).1.running) = true := by
        split_ifs
        · exact hr
        · rw [switchKey_running env s _ str c1]; exact hr
      rw [hkeep]
      constructor
      · intro h; cases h
      · rintro ⟨k, t, h, he, h1, _⟩
        cases he
        exact absurd h1 c1
  | keyRelease =>
    have : (body env s Event.keyRelease).1.running = true := hr
    rw [this]
    constructor
    · intro h; cases h
    · rintro ⟨k, t, h, he, _⟩
      cases he
  | screenChange window rotation width height =>
    have : (body env s (Event.screenChange window rotation width height)).1.running
        = true := by
      unfold body
      dsimp only
      split_ifs <;> exact hr
    rw [this]
    constructor
    · intro h; cases h
    · rintro ⟨k, t, h, he, _⟩
      cases he
  | other =>
    have : (body env s Event.other).1.running = true := hr
    rw [this]
    constructor
    · intro h; cases h
    · rintro ⟨k, t, h, he, _⟩
      cases he

/-- C1: the loop of `readpw` is left at an event exactly when the event is a
key press whose keysym, after keypad normalisation, is Return and `crypt` on
the terminated buffer succeeds with a result equal, as a C string, to the
stored hash; at every other event the loop keeps running. -/
theorem readpw_exit_iff_match (env : Env) (stack : Fin 256 → Byte) (locks : List Lock)
    (evs : List Event) (ev : Event)
    (hr : (readpw env stack locks evs).1.running = true) :
    (readpw env stack locks (evs ++ [ev])).1.running = false ↔
      ∃ ksym str h, ev = Event.keyPress ksym str ∧ normalize ksym = XK_Return ∧
        env.crypt (cstr ((readpw env stack locks evs).1.passwd.set
            (readpw env stack locks evs).1.len 0)) env.hash = some h ∧
        cstr h = cstr env.hash := by
  rw [readpw_snoc env stack locks evs ev hr]
  exact body_stops env _ ev hr

/-- C2: a key press handled as Return or as Escape leaves the length at 0 and
all 256 bytes of `passwd` zero, from any state. -/
theorem return_escape_zero_buffer (env : Env) (s : State) (ksym : Nat) (str : List Byte)
    (hk : normalize ksym = XK_Return ∨ normalize ksym = XK_Escape) :
    (body env s (Event.keyPress ksym str)).1.len = 0 ∧
      (body env s (Event.keyPress ksym str)).1.passwd = List.replicate 256 0 := by
  have hi : ignored (normalize ksym) = false := by
    rcases hk with h | h <;> rw [h] <;> decide
  have hs : (switchKey env s (normalize ksym) str).1.len = 0 ∧
      (switchKey env s (normalize ksym) str).1.passwd = List.replicate 256 0 := by
    unfold switchKey
    rcases hk with h | h
    · rw [if_pos h]
      exact ⟨rfl, rfl⟩
    · have hne : normalize ksym ≠ XK_Return := by
        rw [h]; decide
      rw [if_neg hne, if_pos h]
      exact ⟨rfl, rfl⟩
  have hb : body env s (Event.keyPress ksym str) = onKeyPress env s ksym str := rfl
  rw [hb]
  unfold onKeyPress
  dsimp only
  rw [hi, if_neg (by decide)]
  split_ifs
  · exact hs
  · exact hs

/-- C3: after any sequence of events from the initial state of `readpw` the
length is below 256 and `passwd` has its 256 bytes, so index `len` is inside
the buffer, whatever strings (of any length, cut to 32 bytes by the lookup) the
key presses carry. -/
theorem readpw_len_lt_capacity (env : Env) (stack : Fin 256 → Byte) (locks : List Lock)
    (evs : List Event) :
    (readpw env stack locks evs).1.len < 256 ∧
      (readpw env stack locks evs).1.passwd.length = 256 :=
  ⟨(readpw_inv env stack locks evs).2, (readpw_inv env stack locks evs).1⟩

/-! ## Display reconfiguration -/

theorem resizeLocks_first (window rotation : Nat) (width height : Int) :
    ∀ (locks : List Lock) (i : Nat) (l : Lock), locks[i]? = some l → l.win = window →
      (∀ j l', j < i → locks[j]? = some l' → l'.win ≠ window) →
      (resizeLocks window rotation width height locks).1 =
          locks.set i { l with width := (appliedSize rotation width height).1,
                               height := (appliedSize rotation width height).2 } ∧
        (resizeLocks window rotation width height locks).2 =
          [XCall.XResizeWindow window (appliedSize rotation width height).1
              (appliedSize rotation width height).2,
            XCall.XClearWindow window] := by
  intro locks
  induction locks with
  | nil => intro i l h; simp at h
  | cons a ls ih =>
    intro i l hl hw hfirst
    cases i with
    | zero =>
      simp only [List.getElem?_cons_zero, Option.some.injEq] at hl
      subst hl
      unfold resizeLocks appliedSize
      rw [if_pos hw]
      split_ifs with hrot
      · exact ⟨by simp only [List.set_cons_zero], by rw [hw]⟩
      · exact ⟨by simp only [List.set_cons_zero], by rw [hw]⟩
    | succ k =>
      have ha : a.win ≠ window := hfirst 0 a (Nat.succ_pos k) (by simp)
      simp only [List.getElem?_cons_succ] at hl
      have hrec := ih k l hl hw (fun j l' hj hj' =>
        hfirst (j + 1) l' (Nat.succ_lt_succ hj) (by simpa using hj'))
      unfold resizeLocks
      rw [if_neg ha]
      dsimp only
      rw [hrec.1, hrec.2]
      exact ⟨by simp only [List.set_cons_succ], rfl⟩

/-- What lines 268-291 do: with the extension active, a reconfiguration
notification whose window is the window of the lock of screen `i` (the first
lock with that window; X window ids are distinct, so the only one) resizes
that window to, and stores in that lock, the reported height as width and the
reported width as height when the `rotation` field equals `RR_Rotate_90` or
`RR_Rotate_270`, and the reported width and height as they are for every other
value of the field, a quarter turn with a reflection bit included; the window
is cleared, the other locks and the password state are left alone. -/
theorem screenChange_applies_size (env : Env) (s : State) (window rotation : Nat)
    (width height : Int) (i : Nat) (l : Lock)
    (hactive : env.rrActive = true) (hl : s.locks[i]? = some l) (hw : l.win = window)
    (hfirst : ∀ j l', j < i → s.locks[j]? = some l' → l'.win ≠ window) :
    ((rotation = RR_Rotate_90 ∨ rotation = RR_Rotate_270) →
        (body env s (Event.screenChange window rotation width height)).2.calls =
            [XCall.XResizeWindow window height width, XCall.XClearWindow window] ∧
          (body env s (Event.screenChange window rotation width height)).1.locks[i]? =
            some { l with width := height, height := width }) ∧
      (¬ (rotation = RR_Rotate_90 ∨ rotation = RR_Rotate_270) →
        (body env s (Event.screenChange window rotation width height)).2.calls =
            [XCall.XResizeWindow window width height, XCall.XClearWindow window] ∧
          (body env s (Event.screenChange window rotation width height)).1.locks[i]? =
            some { l with width := width, height := height }) ∧
      (∀ j, j ≠ i →
        (body env s (Event.screenChange window rotation width height)).1.locks[j]? =
          s.locks[j]?) ∧
      (body env s (Event.screenChange window rotation width height)).1.passwd = s.passwd ∧
      (body env s (Event.screenChange window rotation width height)).1.len = s.len ∧
      (body env s (Event.screenChange window rotation width height)).1.running = s.running := by
  have hlt : i < s.locks.length := by
    rcases Nat.lt_or_ge i s.locks.length with h | h
    · exact h
    · rw [List.getElem?_eq_none h] at hl; cases hl
  obtain ⟨h1, h2⟩ := resizeLocks_first window rotation width height s.locks i l hl hw hfirst
  have hb : body env s (Event.screenChange window rotation width height) =
      ({ s with locks := (resizeLocks window rotation width height s.locks).1 },
        ⟨(resizeLocks window rotation width height s.locks).2, none⟩) := by
    unfold body
    dsimp only
    rw [if_pos hactive]
  rw [hb]
  dsimp only
  rw [h1, h2]
  refine ⟨?_, ?_, ?_, rfl, rfl, rfl⟩
  · intro hrot
    simp only [appliedSize, if_pos hrot]
    exact ⟨trivial, by simp [List.getElem?_set, hlt]⟩
  · intro hrot
    simp only [appliedSize, if_neg hrot]
    exact ⟨trivial, by simp [List.getElem?_set, hlt]⟩
  · intro j hj
    simp [List.getElem?_set, Ne.symm hj]

/-! ## The grab retry loop -/

theorem afterAttempts_succ (pt kb : Nat → Int) (k : Nat) :
    afterAttempts pt kb (k + 1) = grabOnce pt kb (afterAttempts pt kb k) := by
  unfold afterAttempts
  exact Function.iterate_succ_apply' _ _ _

theorem grabError_not_both (g : Grabs) (h : grabError g) : ¬ bothGrabbed g := by
  unfold grabError at h
  unfold bothGrabbed
  rintro ⟨h1, h2⟩
  rcases h with ⟨_, h⟩ | ⟨_, h⟩
  · exact h h1
  · exact h h2

theorem grabOnce_pointer (pt kb : Nat → Int) (g : Grabs) :
    (g.ptgrab = GrabSuccess →
        (grabOnce pt kb g).ptcalls = g.ptcalls ∧ (grabOnce pt kb g).ptgrab = GrabSuccess) ∧
      (g.ptgrab ≠ GrabSuccess →
        (grabOnce pt kb g).ptcalls = g.ptcalls + 1 ∧
          (grabOnce pt kb g).ptgrab = pt g.ptcalls) := by
  unfold grabOnce
  constructor
  · intro h
    rw [if_neg (not_not.mpr h)]
    dsimp only
    split_ifs
    · exact ⟨rfl, h⟩
    · exact ⟨rfl, h⟩
  · intro h
    simp only [ne_eq, h, not_false_eq_true, if_true]
    split_ifs
    · exact ⟨rfl, rfl⟩
    · exact ⟨rfl, rfl⟩

theorem grabOnce_keyboard (pt kb : Nat → Int) (g : Grabs) :
    (g.kbgrab = GrabSuccess →
        (grabOnce pt kb g).kbcalls = g.kbcalls ∧ (grabOnce pt kb g).kbgrab = GrabSuccess) ∧
      (g.kbgrab ≠ GrabSuccess →
        (grabOnce pt kb g).kbcalls = g.kbcalls + 1 ∧
          (grabOnce pt kb g).kbgrab = kb g.kbcalls) := by
  unfold grabOnce
  constructor
  · intro h
    split_ifs
    · simp only [ne_eq, h, not_true_eq_false, if_false]
      exact ⟨trivial, trivial⟩
    · simp only [ne_eq, h, not_true_eq_false, if_false]
      exact ⟨trivial, trivial⟩
  · intro h
    split_ifs
    · simp only [ne_eq, h, not_false_eq_true, if_true]
      exact ⟨trivial, trivial⟩
    · simp only [ne_eq, h, not_false_eq_true, if_true]
      exact ⟨trivial, trivial⟩

/-- The retry loop entered at turn `i` with the grabs left by `i` attempts. -/
theorem grabLoop_spec (pt kb : Nat → Int) :
    ∀ (left i : Nat), ¬ bothGrabbed (afterAttempts pt kb i) →
      i ≤ (grabLoop pt kb left i (afterAttempts pt kb i)).attempts ∧
      (0 < left → i < (grabLoop pt kb left i (afterAttempts pt kb i)).attempts) ∧
      (grabLoop pt kb left i (afterAttempts pt kb i)).attempts ≤ i + left ∧
      (grabLoop pt kb left i (afterAttempts pt kb i)).grabs =
        afterAttempts pt kb (grabLoop pt kb left i (afterAttempts pt kb i)).attempts ∧
      (∀ k, i < k → k < (grabLoop pt kb left i (afterAttempts pt kb i)).attempts →
        ¬ bothGrabbed (afterAttempts pt kb k) ∧ ¬ grabError (afterAttempts pt kb k)) ∧
      ((grabLoop pt kb left i (afterAttempts pt kb i)).attempts < i + left →
        bothGrabbed (grabLoop pt kb left i (afterAttempts pt kb i)).grabs ∨
          grabError (grabLoop pt kb left i (afterAttempts pt kb i)).grabs) ∧
      ((grabLoop pt kb left i (afterAttempts pt kb i)).locked = true ↔
        bothGrabbed (grabLoop pt kb left i (afterAttempts pt kb i)).grabs) := by
  intro left
  induction left with
  | zero =>
    intro i hnb
    unfold grabLoop
    dsimp only
    refine ⟨le_refl _, ?_, le_refl _, rfl, ?_, ?_, ?_⟩
    · intro h; exact absurd h (lt_irrefl 0)
    · intro k h1 h2; omega
    · intro h; omega
    · constructor
      · intro h; cases h
      · intro h; exact absurd h hnb
  | succ n ih =>
    intro i hnb
    unfold grabLoop
    dsimp only
    rw [← afterAttempts_succ]
    by_cases hb : bothGrabbed (afterAttempts pt kb (i + 1))
    · rw [if_pos hb]
      dsimp only
      refine ⟨by omega, fun _ => by omega, by omega, rfl, ?_, fun _ => Or.inl hb, ?_⟩
      · intro k h1 h2; omega
      · exact ⟨fun _ => hb, fun _ => rfl⟩
    · rw [if_neg hb]
      by_cases he : grabError (afterAttempts pt kb (i + 1))
      · rw [if_pos he]
        dsimp only
        refine ⟨by omega, fun _ => by omega, by omega, rfl, ?_, fun _ => Or.inr he, ?_⟩
        · intro k h1 h2; omega
        · constructor
          · intro h; cases h
          · intro h; exact absurd h hb
      · rw [if_neg he]
        obtain ⟨a1, _, a3, a4, a5, a6, a7⟩ := ih (i + 1) hb
        refine ⟨by omega, fun _ => by omega, by omega, a4, ?_, ?_, a7⟩
        · intro k h1 h2
          by_cases hk : k = i + 1
          · subst hk; exact ⟨hb, he⟩
          · exact a5 k (by omega) h2
        · intro h
          exact a6 (by omega)

theorem lockscreen_run (d : Display) (screen : Int) (hs : 0 ≤ screen)
    (hm : d.mallocOk screen = true) :
    (lockscreen (some d) screen).run = grabLoop (d.ptGrab screen) (d.kbGrab screen) 6 0 grabs0 ∧
      ((lockscreen (some d) screen).lock.isSome = true ↔
        (grabLoop (d.ptGrab screen) (d.kbGrab screen) 6 0 grabs0).locked = true) ∧
      ((lockscreen (some d) screen).pointerMsg = true ↔
        (grabLoop (d.ptGrab screen) (d.kbGrab screen) 6 0 grabs0).locked = false ∧
          (grabLoop (d.ptGrab screen) (d.kbGrab screen) 6 0 grabs0).grabs.ptgrab
            ≠ GrabSuccess) ∧
      ((lockscreen (some d) screen).keyboardMsg = true ↔
        (grabLoop (d.ptGrab screen) (d.kbGrab screen) 6 0 grabs0).locked = false ∧
          (grabLoop (d.ptGrab screen) (d.kbGrab screen) 6 0 grabs0).grabs.kbgrab
            ≠ GrabSuccess) := by
  unfold lockscreen
  dsimp only
  rw [if_neg (not_lt.mpr hs), hm, if_neg (by decide)]
  split_ifs with h
  · exact ⟨rfl, by simp [h], by simp [h], by simp [h]⟩
  · exact ⟨rfl, by simp [h], by simp [h], by simp [h]⟩

/-- C5: when `lockscreen` reaches its retry loop (non-negative screen, lock
allocated), whatever the grab requests return: the loop starts with both grab
variables at -1 and no request made; in every attempt a grab that has not
succeeded is requested once more and its variable takes what that request
returned (the n-th answer of the server for the n-th request), while a grab
that has succeeded is not requested again and stays successful; between 1 and
6 attempts are made; the grab variables at the end are those left by that many
attempts; no attempt before the last left both grabs successful or a grab with
an error other than `AlreadyGrabbed`; when fewer than 6 attempts are made the
last one did; a lock is returned exactly when the last attempt left both grabs
successful (so none on an error, and none when 6 attempts pass without both
succeeding); and the two messages name the grabs that had not succeeded. -/
theorem lockscreen_retry (d : Display) (screen : Int) (hs : 0 ≤ screen)
    (hm : d.mallocOk screen = true) :
    afterAttempts (d.ptGrab screen) (d.kbGrab screen) 0 =
        { ptgrab := -1, kbgrab := -1, ptcalls := 0, kbcalls := 0 } ∧
      (∀ k,
        ((afterAttempts (d.ptGrab screen) (d.kbGrab screen) k).ptgrab ≠ GrabSuccess →
          (afterAttempts (d.ptGrab screen) (d.kbGrab screen) (k + 1)).ptgrab =
              d.ptGrab screen (afterAttempts (d.ptGrab screen) (d.kbGrab screen) k).ptcalls ∧
            (afterAttempts (d.ptGrab screen) (d.kbGrab screen) (k + 1)).ptcalls =
              (afterAttempts (d.ptGrab screen) (d.kbGrab screen) k).ptcalls + 1) ∧
        ((afterAttempts (d.ptGrab screen) (d.kbGrab screen) k).ptgrab = GrabSuccess →
          (afterAttempts (d.ptGrab screen) (d.kbGrab screen) (k + 1)).ptgrab = GrabSuccess ∧
            (afterAttempts (d.ptGrab screen) (d.kbGrab screen) (k + 1)).ptcalls =
              (afterAttempts (d.ptGrab screen) (d.kbGrab screen) k).ptcalls) ∧
        ((afterAttempts (d.ptGrab screen) (d.kbGrab screen) k).kbgrab ≠ GrabSuccess →
          (afterAttempts (d.ptGrab screen) (d.kbGrab screen) (k + 1)).kbgrab =
              d.kbGrab screen (afterAttempts (d.ptGrab screen) (d.kbGrab screen) k).kbcalls ∧
            (afterAttempts (d.ptGrab screen) (d.kbGrab screen) (k + 1)).kbcalls =
              (afterAttempts (d.ptGrab screen) (d.kbGrab screen) k).kbcalls + 1) ∧
        ((afterAttempts (d.ptGrab screen) (d.kbGrab screen) k).kbgrab = GrabSuccess →
          (afterAttempts (d.ptGrab screen) (d.kbGrab screen) (k + 1)).kbgrab = GrabSuccess ∧
            (afterAttempts (d.ptGrab screen) (d.kbGrab screen) (k + 1)).kbcalls =
              (afterAttempts (d.ptGrab screen) (d.kbGrab screen) k).kbcalls)) ∧
      1 ≤ (lockscreen (some d) screen).run.attempts ∧
      (lockscreen (some d) screen).run.attempts ≤ 6 ∧
      (lockscreen (some d) screen).run.grabs =
        afterAttempts (d.ptGrab screen) (d.kbGrab screen)
          (lockscreen (some d) screen).run.attempts ∧
      (∀ k, 1 ≤ k → k < (lockscreen (some d) screen).run.attempts →
        ¬ bothGrabbed (afterAttempts (d.ptGrab screen) (d.kbGrab screen) k) ∧
          ¬ grabError (afterAttempts (d.ptGrab screen) (d.kbGrab screen) k)) ∧
      ((lockscreen (some d) screen).run.attempts < 6 →
        bothGrabbed (lockscreen (some d) screen).run.grabs ∨
          grabError (lockscreen (some d) screen).run.grabs) ∧
      ((lockscreen (some d) screen).lock.isSome = true ↔
        (lockscreen (some d) screen).run.grabs.ptgrab = GrabSuccess ∧
          (lockscreen (some d) screen).run.grabs.kbgrab = GrabSuccess) ∧
      (grabError (lockscreen (some d) screen).run.grabs →
        (lockscreen (some d) screen).lock = none) ∧
      ((lockscreen (some d) screen).pointerMsg = true ↔
        (lockscreen (some d) screen).run.grabs.ptgrab ≠ GrabSuccess) ∧
      ((lockscreen (some d) screen).keyboardMsg = true ↔
        (lockscreen (some d) screen).run.grabs.kbgrab ≠ GrabSuccess) := by
  obtain ⟨hrun, hlock, hpm, hkm⟩ := lockscreen_run d screen hs hm
  have h0 : ¬ bothGrabbed (afterAttempts (d.ptGrab screen) (d.kbGrab screen) 0) := by
    intro h
    have hp : grabs0.ptgrab = GrabSuccess := h.1
    exact absurd hp (by decide)
  obtain ⟨_, a2, a3, a4, a5, a6, a7⟩ :=
    grabLoop_spec (d.ptGrab screen) (d.kbGrab screen) 6 0 h0
  have e0 : afterAttempts (d.ptGrab screen) (d.kbGrab screen) 0 = grabs0 := rfl
  rw [e0] at a2 a3 a4 a5 a6 a7
  have hnl : (grabLoop (d.ptGrab screen) (d.kbGrab screen) 6 0 grabs0).locked = false ↔
      ¬ bothGrabbed (grabLoop (d.ptGrab screen) (d.kbGrab screen) 6 0 grabs0).grabs := by
    rw [← a7]
    simp
  rw [hpm, hkm, hnl, hrun, hlock]
  refine ⟨rfl, ?_, a2 (by omega), by omega, a4, fun k hk => a5 k (by omega),
    fun h => a6 (by omega), a7, ?_, ⟨fun h => h.2, fun h => ⟨fun hb => h hb.1, h⟩⟩,
    ⟨fun h => h.2, fun h => ⟨fun hb => h hb.2, h⟩⟩⟩
  · intro k
    rw [afterAttempts_succ]
    refine ⟨fun h => ?_, fun h => ?_, fun h => ?_, fun h => ?_⟩
    · exact ⟨((grabOnce_pointer _ _ _).2 h).2, ((grabOnce_pointer _ _ _).2 h).1⟩
    · exact ⟨((grabOnce_pointer _ _ _).1 h).2, ((grabOnce_pointer _ _ _).1 h).1⟩
    · exact ⟨((grabOnce_keyboard _ _ _).2 h).2, ((grabOnce_keyboard _ _ _).2 h).1⟩
    · exact ⟨((grabOnce_keyboard _ _ _).1 h).2, ((grabOnce_keyboard _ _ _).1 h).1⟩
  · intro he
    have hnb := grabError_not_both _ he
    have hl : (lockscreen (some d) screen).lock.isSome ≠ true :=
      fun h => hnb (a7.mp (hlock.mp h))
    cases hopt : (lockscreen (some d) screen).lock with
    | none => rfl
    | some l => rw [hopt] at hl; exact absurd rfl hl

/-! ## The tail of `main` -/

theorem lockScreens_all (d : Display) :
    ∀ (left s : Nat), (lockScreens d left s).length = left ↔
      ∀ k, k < left → (lockscreen (some d) ((s + k : Nat) : Int)).lock.isSome = true := by
  intro left
  induction left with
  | zero => intro s; simp [lockScreens]
  | succ n ih =>
    intro s
    unfold lockScreens
    cases hl : (lockscreen (some d) (s : Int)).lock with
    | none =>
      simp only [List.length_nil]
      constructor
      · intro h; omega
      · intro h
        have := h 0 (Nat.succ_pos n)
        rw [Nat.add_zero, hl] at this
        cases this
    | some l =>
      simp only [List.length_cons, Nat.add_right_cancel_iff]
      rw [ih (s + 1)]
      constructor
      · intro h k hk
        cases k with
        | zero => rw [Nat.add_zero, hl]; rfl
        | succ j =>
          have := h j (by omega)
          rw [show s + (j + 1) = s + 1 + j by omega]
          exact this
      · intro h k hk
        have := h (k + 1) (by omega)
        rw [show s + 1 + k = s + (k + 1) by omega]
        exact this

theorem mainTail_cases (p : Proc) :
    ((mainTail p).entersReadpw = true ↔
        p.callocOk = true ∧ (lockScreens p.dpy p.dpy.nscreens 0).length = p.dpy.nscreens ∧
          (0 < p.argc → p.fork ≠ -1 ∧ p.fork ≠ 0)) ∧
      ((mainTail p).entersReadpw = false →
        mainTail p = MainResult.exit 1 ∨
          (mainTail p = MainResult.execvp ∧ 0 < p.argc ∧ p.fork = 0)) ∧
      ((lockScreens p.dpy p.dpy.nscreens 0).length ≠ p.dpy.nscreens →
        mainTail p = MainResult.exit 1) := by
  unfold mainTail
  dsimp only
  by_cases hc : p.callocOk = false
  · rw [if_pos hc]
    simp [MainResult.entersReadpw, hc]
  rw [if_neg hc]
  have hc1 : p.callocOk = true := by simpa using hc
  by_cases hn : (lockScreens p.dpy p.dpy.nscreens 0).length ≠ p.dpy.nscreens
  · rw [if_pos hn]
    simp [MainResult.entersReadpw, hn]
  rw [if_neg hn]
  have hn1 : (lockScreens p.dpy p.dpy.nscreens 0).length = p.dpy.nscreens := by
    simpa using hn
  by_cases ha : 0 < p.argc
  · rw [if_pos ha]
    by_cases hf : p.fork = -1
    · rw [if_pos hf]
      simp [MainResult.entersReadpw, hf, ha]
    rw [if_neg hf]
    by_cases hz : p.fork = 0
    · rw [if_pos hz]
      split_ifs <;> simp [MainResult.entersReadpw, hz, ha, hn1]
    rw [if_neg hz]
    simp [MainResult.entersReadpw, hc1, hn1, hf, hz]
  · rw [if_neg ha]
    simp [MainResult.entersReadpw, hc1, hn1, ha]

/-- C4, as amended: `main` calls `readpw` exactly when every screen produced
a lock (the `locks` array was allocated and `lockscreen` returned one for each
of the `nscreens` screens) and, if a post-lock command is given, `fork`
returned neither -1 nor 0. When some screen got no lock the process exits with
status 1. Whenever `readpw` is not called the process exits with status 1, or
it is the forked child and has been replaced by the command. -/
theorem main_enters_readpw_iff (p : Proc) :
    ((mainTail p).entersReadpw = true ↔
        p.callocOk = true ∧
          (∀ k, k < p.dpy.nscreens →
            (lockscreen (some p.dpy) ((k : Nat) : Int)).lock.isSome = true) ∧
          (0 < p.argc → p.fork ≠ -1 ∧ p.fork ≠ 0)) ∧
      ((∃ k, k < p.dpy.nscreens ∧ (lockscreen (some p.dpy) ((k : Nat) : Int)).lock = none) →
        mainTail p = MainResult.exit 1) ∧
      ((mainTail p).entersReadpw = false →
        mainTail p = MainResult.exit 1 ∨
          (mainTail p = MainResult.execvp ∧ 0 < p.argc ∧ p.fork = 0)) := by
  obtain ⟨h1, h2, h3⟩ := mainTail_cases p
  have hall := lockScreens_all p.dpy p.dpy.nscreens 0
  simp only [Nat.zero_add] at hall
  rw [hall] at h1
  refine ⟨h1, ?_, h2⟩
  rintro ⟨k, hk, hnone⟩
  apply h3
  intro hlen
  have := hall.mp hlen k hk
  rw [hnone] at this
  cases this

/-- C4, counterexample to the claim as stated: on `forkFails` the one screen
produced a lock, yet `main` exits with status 1 without calling `readpw`. -/
theorem main_fork_failure_no_readpw :
    (∀ k, k < forkFails.dpy.nscreens →
        (lockscreen (some forkFails.dpy) ((k : Nat) : Int)).lock.isSome = true) ∧
      mainTail forkFails = MainResult.exit 1 ∧
      (mainTail forkFails).entersReadpw = false := by
  decide

/-- C5, instance (the pointer is already grabbed at all six requests, the
keyboard is granted at once): six attempts are made, each followed by a sleep,
the pointer is requested six times and the keyboard once, no lock is returned
and the pointer message alone is printed. -/
theorem lockscreen_retry_pointer_busy :
    (0 : Int) ≤ 0 ∧ pointerBusy.mallocOk 0 = true ∧
      (lockscreen (some pointerBusy) 0).run.attempts = 6 ∧
      (lockscreen (some pointerBusy) 0).run.sleeps = 6 ∧
      (lockscreen (some pointerBusy) 0).run.grabs =
        { ptgrab := AlreadyGrabbed, kbgrab := GrabSuccess, ptcalls := 6, kbcalls := 1 } ∧
      (lockscreen (some pointerBusy) 0).lock = none ∧
      (lockscreen (some pointerBusy) 0).pointerMsg = true ∧
      (lockscreen (some pointerBusy) 0).keyboardMsg = false ∧
      (lockscreen (some pointerBusy) 0).run.grabs =
        afterAttempts (pointerBusy.ptGrab 0) (pointerBusy.kbGrab 0)
          (lockscreen (some pointerBusy) 0).run.attempts :=
  have h := lockscreen_retry pointerBusy 0 (by decide) rfl
  ⟨by decide, rfl, by decide, by decide, by decide, by decide,
    h.2.2.2.2.2.2.2.2.2.1.mpr (by decide), by decide, h.2.2.2.2.1⟩

/-- The retry loop on three more displays: both grabs granted at once (one
attempt, lock returned); pointer granted at the third request and keyboard at
the second (three attempts, three and two requests, lock returned); keyboard
refused with `GrabNotViewable` (one attempt, no lock, both messages). -/
theorem lockscreen_runs :
    ((lockscreen (some oneScreen) 0).run.attempts = 1 ∧
        (lockscreen (some oneScreen) 0).lock.isSome = true) ∧
      ((lockscreen (some pointerLate) 0).run.attempts = 3 ∧
        (lockscreen (some pointerLate) 0).run.grabs =
          { ptgrab := GrabSuccess, kbgrab := GrabSuccess, ptcalls := 3, kbcalls := 2 } ∧
        (lockscreen (some pointerLate) 0).lock.isSome = true) ∧
      ((lockscreen (some keyboardRefused) 0).run.attempts = 1 ∧
        (lockscreen (some keyboardRefused) 0).run.grabs =
          { ptgrab := AlreadyGrabbed, kbgrab := GrabNotViewable, ptcalls := 1, kbcalls := 1 } ∧
        (lockscreen (some keyboardRefused) 0).lock = none ∧
        (lockscreen (some keyboardRefused) 0).pointerMsg = true ∧
        (lockscreen (some keyboardRefused) 0).keyboardMsg = true) := by
  decide

/-! ## Redraws -/

theorem colorOf_eq_visualState (env : Env) (len : Nat) (failure : Bool) :
    colorOf env len failure = visualState (decide (0 < len)) failure env.failonclear := by
  unfold colorOf visualState
  by_cases h : len = 0
  · subst h; simp
  · have : 0 < len := Nat.pos_of_ne_zero h
    simp [h, this]

theorem lastDrawn_snoc (outs : List Out) (o : Out) :
    lastDrawn (outs ++ [o]) = o.redraw.getD (lastDrawn outs) := by
  unfold lastDrawn
  rw [List.foldl_append]
  rfl

theorem lastDrawn_of_no_redraw (outs : List Out) (h : ∀ o ∈ outs, o.redraw = none) :
    lastDrawn outs = Color.INIT := by
  induction outs using List.reverseRecOn with
  | nil => rfl
  | append_singleton outs o ih =>
    rw [lastDrawn_snoc, h o (by simp), ih (fun x hx => h x (by simp [hx]))]
    rfl

theorem onEscape_oldc (s : State) : (onEscape s).1.oldc = s.oldc := rfl

theorem onReturn_oldc (env : Env) (s : State) : (onReturn env s).1.oldc = s.oldc := rfl

theorem onBackSpace_oldc (s : State) : (onBackSpace s).1.oldc = s.oldc := by
  unfold onBackSpace
  split_ifs <;> rfl

theorem onOther_oldc (s : State) (str : List Byte) : (onOther s str).1.oldc = s.oldc := by
  unfold onOther
  split_ifs <;> rfl

theorem switchKey_oldc (env : Env) (s : State) (ksym : Nat) (str : List Byte) :
    (switchKey env s ksym str).1.oldc = s.oldc := by
  unfold switchKey
  split_ifs
  · exact onReturn_oldc env s
  · exact onEscape_oldc s
  · exact onBackSpace_oldc s
  · exact onOther_oldc s str

/-- The turn of the loop on a key press that is not skipped, in terms of the
result of the `switch`. -/
theorem onKeyPress_handled (env : Env) (s : State) (ksym : Nat) (str : List Byte)
    (hi : ignored (normalize ksym) = false) :
    (onKeyPress env s ksym str).1.passwd = (switchKey env s (normalize ksym) str).1.passwd ∧
      (onKeyPress env s ksym str).1.len = (switchKey env s (normalize ksym) str).1.len ∧
      (onKeyPress env s ksym str).1.failure = (switchKey env s (normalize ksym) str).1.failure ∧
      (onKeyPress env s ksym str).1.running = (switchKey env s (normalize ksym) str).1.running ∧
      (onKeyPress env s ksym str).2.redraw =
        (if (switchKey env s (normalize ksym) str).1.running = true ∧
            s.oldc ≠ colorOf env (switchKey env s (normalize ksym) str).1.len
              (switchKey env s (normalize ksym) str).1.failure
          then some (colorOf env (switchKey env s (normalize ksym) str).1.len
              (switchKey env s (normalize ksym) str).1.failure)
          else none) ∧
      (onKeyPress env s ksym str).1.oldc = (onKeyPress env s ksym str).2.redraw.getD s.oldc := by
  unfold onKeyPress
  dsimp only
  rw [hi, if_neg (by decide), switchKey_oldc]
  split_ifs with h
  · exact ⟨rfl, rfl, rfl, rfl, rfl, rfl⟩
  · exact ⟨rfl, rfl, rfl, rfl, rfl, (switchKey_oldc env s _ str)⟩

theorem onKeyPress_ignored (env : Env) (s : State) (ksym : Nat) (str : List Byte)
    (hi : ignored (normalize ksym) = true) :
    onKeyPress env s ksym str = (s, ⟨[], none⟩) := by
  unfold onKeyPress
  dsimp only
  rw [if_pos hi]

/-- One turn of the loop either leaves length, flags and drawn colour alone
and draws nothing, or leaves `oldc` equal to the colour of the new state
whenever the loop goes on; `oldc` always follows the redraws. -/
theorem body_oldc (env : Env) (s : State) (ev : Event) :
    (body env s ev).1.oldc = (body env s ev).2.redraw.getD s.oldc ∧
      (((body env s ev).1.len = s.len ∧ (body env s ev).1.failure = s.failure ∧
          (body env s ev).1.passwd = s.passwd ∧
          (body env s ev).1.running = s.running ∧ (body env s ev).2.redraw = none) ∨
        ((body env s ev).1.running = true →
          (body env s ev).1.oldc = colorOf env (body env s ev).1.len (body env s ev).1.failure)) := by
  cases ev with
  | keyPress ksym str =>
    have hb : body env s (Event.keyPress ksym str) = onKeyPress env s ksym str := rfl
    rw [hb]
    by_cases hi : ignored (normalize ksym) = true
    · rw [onKeyPress_ignored env s ksym str hi]
      exact ⟨rfl, Or.inl ⟨rfl, rfl, rfl, rfl, rfl⟩⟩
    · have hi' : ignored (normalize ksym) = false := by simpa using hi
      obtain ⟨_, h2, h3, h4, h5, h6⟩ := onKeyPress_handled env s ksym str hi'
      refine ⟨h6, Or.inr ?_⟩
      intro hr
      rw [h6, h5, h2, h3]
      rw [h4] at hr
      by_cases hc : s.oldc = colorOf env (switchKey env s (normalize ksym) str).1.len
          (switchKey env s (normalize ksym) str).1.failure
      · rw [if_neg (fun h => h.2 hc)]
        exact hc
      · rw [if_pos ⟨hr, hc⟩]
        rfl
  | keyRelease => exact ⟨rfl, Or.inl ⟨rfl, rfl, rfl, rfl, rfl⟩⟩
  | screenChange window rotation width height =>
    unfold body
    dsimp only
    split_ifs
    · exact ⟨rfl, Or.inl ⟨rfl, rfl, rfl, rfl, rfl⟩⟩
    · exact ⟨rfl, Or.inl ⟨rfl, rfl, rfl, rfl, rfl⟩⟩
  | other => exact ⟨rfl, Or.inl ⟨rfl, rfl, rfl, rfl, rfl⟩⟩

theorem body_drawInv (env : Env) (s : State) (outs : List Out) (ev : Event)
    (hr : s.running = true) (h : DrawInv env s outs) :
    DrawInv env (body env s ev).1 (outs ++ [(body env s ev).2]) := by
  obtain ⟨h1, h2⟩ := h
  obtain ⟨b1, b2⟩ := body_oldc env s ev
  refine ⟨by rw [lastDrawn_snoc, b1, h1], ?_⟩
  intro hr'
  rcases b2 with ⟨c1, c2, _, _, c5⟩ | b2
  · rw [b1, c5, c1, c2]
    rcases h2 hr with h | ⟨g1, g2, g3⟩
    · exact Or.inl h
    · refine Or.inr ⟨?_, g2, g3⟩
      intro o ho
      rcases List.mem_append.mp ho with ho | ho
      · exact g1 o ho
      · rw [List.mem_singleton.mp ho]; exact c5
  · exact Or.inl (b2 hr')

theorem loop_drawInv (env : Env) (evs : List Event) :
    ∀ (s : State) (outs : List Out), DrawInv env s outs →
      DrawInv env (loop env s outs evs).1 (loop env s outs evs).2 := by
  induction evs with
  | nil => intro s outs h; exact h
  | cons ev evs ih =>
    intro s outs h
    unfold loop
    split_ifs with hr
    · exact ih _ _ (body_drawInv env s outs ev hr h)
    · exact h

theorem readpw_drawInv (env : Env) (stack : Fin 256 → Byte) (locks : List Lock)
    (evs : List Event) :
    DrawInv env (readpw env stack locks evs).1 (readpw env stack locks evs).2 := by
  apply loop_drawInv
  refine ⟨rfl, fun _ => Or.inr ⟨?_, rfl, rfl⟩⟩
  intro o ho
  cases ho

theorem switchKey_BackSpace (env : Env) (s : State) (str : List Byte) :
    switchKey env s XK_BackSpace str = onBackSpace s := by
  unfold switchKey
  rw [if_neg (by decide), if_neg (by decide), if_pos rfl]

/-- C7, as amended: at a key press taken from a state the loop has reached, a
redraw happens exactly when the key is not of a skipped class, the loop still
runs after the key (it is not the Return that matched) and the VisualState for
the new length and failure flag differs from the one last drawn; the redraw
draws that VisualState, which becomes the one last drawn. -/
theorem redraw_iff_visual_change (env : Env) (stack : Fin 256 → Byte) (locks : List Lock)
    (evs : List Event) (s : State) (outs : List Out) (ksym : Nat) (str : List Byte)
    (hq : readpw env stack locks evs = (s, outs)) :
    ((body env s (Event.keyPress ksym str)).2.redraw.isSome = true ↔
        ignored (normalize ksym) = false ∧
          (body env s (Event.keyPress ksym str)).1.running = true ∧
          visualState (decide (0 < (body env s (Event.keyPress ksym str)).1.len))
              (body env s (Event.keyPress ksym str)).1.failure env.failonclear ≠
            lastDrawn outs) ∧
      (∀ c, (body env s (Event.keyPress ksym str)).2.redraw = some c →
        c = visualState (decide (0 < (body env s (Event.keyPress ksym str)).1.len))
              (body env s (Event.keyPress ksym str)).1.failure env.failonclear ∧
          lastDrawn (outs ++ [(body env s (Event.keyPress ksym str)).2]) = c) := by
  have hinv := readpw_drawInv env stack locks evs
  rw [hq] at hinv
  obtain ⟨hold, _⟩ := hinv
  have hb : body env s (Event.keyPress ksym str) = onKeyPress env s ksym str := rfl
  rw [hb, ← hold]
  by_cases hi : ignored (normalize ksym) = true
  · rw [onKeyPress_ignored env s ksym str hi]
    constructor
    · simp [hi]
    · intro c hc; cases hc
  · have hi' : ignored (normalize ksym) = false := by simpa using hi
    obtain ⟨_, h2, h3, h4, h5, _⟩ := onKeyPress_handled env s ksym str hi'
    rw [h2, h3, h4, h5, ← colorOf_eq_visualState, lastDrawn_snoc, h5]
    by_cases hc : (switchKey env s (normalize ksym) str).1.running = true ∧
        s.oldc ≠ colorOf env (switchKey env s (normalize ksym) str).1.len
          (switchKey env s (normalize ksym) str).1.failure
    · rw [if_pos hc]
      refine ⟨⟨fun _ => ⟨hi', hc.1, fun h => hc.2 h.symm⟩, fun _ => rfl⟩, ?_⟩
      intro c hcc
      cases hcc
      exact ⟨rfl, rfl⟩
    · rw [if_neg hc]
      refine ⟨Iff.intro (fun h => ?_) (fun h => ?_), fun c hcc => ?_⟩
      · cases h
      · exact absurd ⟨h.2.1, fun e => h.2.2 e.symm⟩ hc
      · cases hcc

/-- C7, counterexample to the claim as stated, at two key events where the
VisualState after the event differs from the one last drawn and nothing is
redrawn. First: after "a" was typed (TYPING drawn), the Return that matches
leaves length 0 and no failure, so the VisualState is IDLE. Second: with
failonclear set, F1 as the first key is skipped while the VisualState of the
empty buffer is FAILED and the one last drawn is the initial IDLE. -/
theorem redraw_missing_at_visual_change :
    ((body (demoEnv false) (readpw (demoEnv false) zeroStack [] [keyA]).1 keyReturn).2.redraw
        = none ∧
      lastDrawn (readpw (demoEnv false) zeroStack [] [keyA]).2 = Color.INPUT ∧
      visualState
          (decide (0 < (body (demoEnv false)
            (readpw (demoEnv false) zeroStack [] [keyA]).1 keyReturn).1.len))
          (body (demoEnv false)
            (readpw (demoEnv false) zeroStack [] [keyA]).1 keyReturn).1.failure
          (demoEnv false).failonclear = Color.INIT) ∧
    ((body (demoEnv true) (readpw (demoEnv true) zeroStack [] []).1 keyF1).2.redraw = none ∧
      lastDrawn (readpw (demoEnv true) zeroStack [] []).2 = Color.INIT ∧
      visualState
          (decide (0 < (body (demoEnv true)
            (readpw (demoEnv true) zeroStack [] []).1 keyF1).1.len))
          (body (demoEnv true) (readpw (demoEnv true) zeroStack [] []).1 keyF1).1.failure
          (demoEnv true).failonclear = Color.FAILED) := by
  set_option maxRecDepth 100000 in decide

/-- C7, instance of the amended claim: typing "a" from the start redraws. -/
theorem redraw_iff_visual_change_keyA :
    readpw (demoEnv false) zeroStack [] [] = (initState zeroStack [], []) ∧
      (body (demoEnv false) (initState zeroStack []) (Event.keyPress 0x61 [97])).2.redraw
        = some Color.INPUT := by
  have h := redraw_iff_visual_change (demoEnv false) zeroStack [] [] (initState zeroStack [])
    [] 0x61 [97] rfl
  refine ⟨rfl, ?_⟩
  have hsome := h.1.mpr (by decide)
  cases hr : (body (demoEnv false) (initState zeroStack []) (Event.keyPress 0x61 [97])).2.redraw with
  | none => rw [hr] at hsome; cases hsome
  | some c =>
    rw [(h.2 c hr).1]
    decide

/-- C8, as amended: in a state the loop has reached and runs in, with length
0, a BackSpace leaves the length at 0 and the buffer and the failure flag as
they are; it redraws nothing, except when failonclear is set and nothing was
drawn since the loop started, where it draws FAILED. -/
theorem backspace_on_empty (env : Env) (stack : Fin 256 → Byte) (locks : List Lock)
    (evs : List Event) (s : State) (outs : List Out) (ksym : Nat) (str : List Byte)
    (hq : readpw env stack locks evs = (s, outs)) (hr : s.running = true) (h0 : s.len = 0)
    (hk : normalize ksym = XK_BackSpace) :
    (body env s (Event.keyPress ksym str)).1.len = 0 ∧
      (body env s (Event.keyPress ksym str)).1.passwd = s.passwd ∧
      (body env s (Event.keyPress ksym str)).1.failure = s.failure ∧
      (body env s (Event.keyPress ksym str)).1.running = true ∧
      ((body env s (Event.keyPress ksym str)).2.redraw = none ↔
        ¬ (env.failonclear = true ∧ ∀ o ∈ outs, o.redraw = none)) ∧
      (∀ c, (body env s (Event.keyPress ksym str)).2.redraw = some c → c = Color.FAILED) := by
  have hinv := readpw_drawInv env stack locks evs
  rw [hq] at hinv
  obtain ⟨hold, hcons⟩ := hinv
  dsimp only at hold hcons
  have hb : body env s (Event.keyPress ksym str) = onKeyPress env s ksym str := rfl
  have hi : ignored (normalize ksym) = false := by rw [hk]; decide
  have hsw : switchKey env s (normalize ksym) str = (s, []) := by
    rw [hk, switchKey_BackSpace]
    unfold onBackSpace
    rw [if_neg (not_not.mpr h0)]
  obtain ⟨h1, h2, h3, h4, h5, _⟩ := onKeyPress_handled env s ksym str hi
  rw [hsw] at h1 h2 h3 h4 h5
  dsimp only at h1 h2 h3 h4 h5
  rw [hb, h1, h2, h3, h4, h5, h0]
  refine ⟨rfl, rfl, rfl, hr, ?_, ?_⟩
  · rcases hcons hr with h | ⟨g1, g2, g3⟩
    · rw [h0] at h
      rw [if_neg (fun hh => hh.2 h)]
      refine ⟨fun _ => ?_, fun _ => rfl⟩
      rintro ⟨f1, f2⟩
      have e1 : s.oldc = Color.INIT := by rw [hold]; exact lastDrawn_of_no_redraw outs f2
      rw [e1] at h
      unfold colorOf at h
      rw [if_neg (by decide), f1, Bool.or_true, if_pos rfl] at h
      cases h
    · have e1 : s.oldc = Color.INIT := by rw [hold]; exact lastDrawn_of_no_redraw outs g1
      rw [e1, g3]
      cases hf : env.failonclear with
      | false =>
        have : colorOf env 0 false = Color.INIT := by
          unfold colorOf; rw [hf]; rfl
        rw [this, if_neg (fun hh => hh.2 rfl)]
        simp
      | true =>
        have : colorOf env 0 false = Color.FAILED := by
          unfold colorOf; rw [hf]; rfl
        rw [this, if_pos ⟨hr, by decide⟩]
        simp only [reduceCtorEq, true_and, false_iff, not_not]
        exact g1
  · intro c hc
    by_cases hd : s.running = true ∧ s.oldc ≠ colorOf env 0 s.failure
    · rw [if_pos hd] at hc
      cases hc
      rcases hcons hr with h | ⟨g1, g2, g3⟩
      · rw [h0] at h; exact absurd h hd.2
      · unfold colorOf
        rw [if_neg (by decide)]
        split_ifs with hx
        · rfl
        · exfalso
          apply hd.2
          rw [hold, lastDrawn_of_no_redraw outs g1]
          unfold colorOf
          rw [if_neg (by decide), if_neg hx]
    · rw [if_neg hd] at hc
      cases hc

/-- C8, counterexample to the claim as stated: with failonclear set, the
first key press being a BackSpace (length 0, nothing typed) draws FAILED. -/
theorem backspace_redraws_with_failonclear :
    (readpw (demoEnv true) zeroStack [] []).1.len = 0 ∧
      (readpw (demoEnv true) zeroStack [] []).1.running = true ∧
      (body (demoEnv true) (readpw (demoEnv true) zeroStack [] []).1 keyBackSpace).2.redraw
        = some Color.FAILED := by
  set_option maxRecDepth 100000 in decide

/-- C8, instance of the amended claim: without failonclear a BackSpace at the
start draws nothing. -/
theorem backspace_on_empty_at_start :
    (body (demoEnv false) (initState zeroStack []) (Event.keyPress XK_BackSpace [8])).1.len = 0 ∧
      (body (demoEnv false) (initState zeroStack [])
        (Event.keyPress XK_BackSpace [8])).2.redraw = none := by
  have h := backspace_on_empty (demoEnv false) zeroStack [] [] (initState zeroStack []) []
    XK_BackSpace [8] rfl rfl rfl (by decide)
  exact ⟨h.1, h.2.2.2.2.1.mpr (by decide)⟩

/-! ## The buffer as the text typed -/

theorem take_set_self (a : Byte) : ∀ (l : List Byte) (n : Nat),
    (l.set n a).take n = l.take n := by
  intro l
  induction l with
  | nil => intro n; simp
  | cons x xs ih =>
    intro n
    cases n with
    | zero => simp
    | succ k => simp [ih k]

theorem take_succ_set (a : Byte) : ∀ (l : List Byte) (n : Nat), n < l.length →
    (l.set n a).take (n + 1) = l.take n ++ [a] := by
  intro l
  induction l with
  | nil => intro n h; simp at h
  | cons x xs ih =>
    intro n h
    cases n with
    | zero => simp
    | succ k =>
      have hk : k < xs.length := by simpa using h
      simp [ih k hk]

theorem cstr_set_zero : ∀ (l : List Byte) (n : Nat), n < l.length →
    cstr (l.set n 0) = cstr (l.take n) := by
  intro l
  induction l with
  | nil => intro n h; simp at h
  | cons x xs ih =>
    intro n h
    cases n with
    | zero => simp [cstr]
    | succ k =>
      have hk : k < xs.length := by simpa using h
      have := ih k hk
      unfold cstr at this ⊢
      simp only [List.set_cons_succ, List.take_succ_cons, List.takeWhile_cons, this]

theorem lookupBuf_take (str : List Byte) :
    (lookupBuf str).take (lookupNum str) = str.take 32 := by
  unfold lookupBuf
  apply List.take_left'
  simp only [List.length_take, lookupNum]
  exact Nat.min_comm _ _

theorem lookupBuf_head (str : List Byte) : (lookupBuf str).headD 0 = str.headD 0 := by
  cases str with
  | nil => rfl
  | cons b bs => simp [lookupBuf]

theorem WF_take_length (s : State) (h : WF s) : (s.passwd.take s.len).length = s.len := by
  obtain ⟨h1, h2⟩ := h
  rw [List.length_take, h1]
  omega

theorem onBackSpace_take (s : State) (hwf : WF s) :
    (onBackSpace s).1.passwd.take (onBackSpace s).1.len = (s.passwd.take s.len).dropLast := by
  obtain ⟨w1, w2⟩ := hwf
  unfold onBackSpace
  split_ifs with h
  · dsimp only
    rw [take_set_self, List.dropLast_eq_take, List.take_take, List.length_take]
    congr 1
    omega
  · have h0 : s.len = 0 := not_not.mp h
    rw [h0]
    rfl

theorem onOther_take (s : State) (str : List Byte) (h : WF s) :
    (accepts s.len str = true →
        (onOther s str).1.len = s.len + lookupNum str ∧
          (onOther s str).1.passwd.take (onOther s str).1.len =
            s.passwd.take s.len ++ str.take 32) ∧
      (accepts s.len str = false → onOther s str = (s, [])) := by
  have hn := lookupNum_le str
  have h2 := h.2
  constructor
  · intro ha
    have hfit := ((accepts_fits s.len str h2).mp ha).2.2
    have e : (s.len + lookupNum str) % 2 ^ 32 = s.len + lookupNum str :=
      Nat.mod_eq_of_lt (by omega)
    unfold onOther
    rw [if_pos ha]
    dsimp only
    rw [e]
    refine ⟨rfl, ?_⟩
    unfold memcpyAt
    rw [lookupBuf_take]
    apply List.take_left'
    rw [List.length_append, WF_take_length s h, List.length_take]
    have : lookupNum str = min 32 str.length := Nat.min_comm _ _
    omega
  · intro ha
    unfold onOther
    rw [ha, if_neg (by decide)]

theorem switchKey_other (env : Env) (s : State) (ksym : Nat) (str : List Byte)
    (hk1 : ksym ≠ XK_Return) (hk2 : ksym ≠ XK_Escape) (hk3 : ksym ≠ XK_BackSpace) :
    switchKey env s ksym str = onOther s str := by
  unfold switchKey
  rw [if_neg hk1, if_neg hk2, if_neg hk3]

theorem switchKey_Escape (env : Env) (s : State) (str : List Byte) :
    switchKey env s XK_Escape str = onEscape s := by
  unfold switchKey
  rw [if_neg (by decide), if_pos rfl]

/-- C9, as amended: for a key press that is not Return, Escape, BackSpace or
of a skipped class and whose lookup yields `num >= 1` bytes, taken in a state
the loop has reached: when the first byte is not a control character the bytes
are appended (the length grows by `num`) if and only if `len + num < 256`, one
byte of the 256 staying free for the terminator; when they are not appended,
or the first byte is a control character, buffer and length are unchanged. -/
theorem printable_appended_iff_room (env : Env) (stack : Fin 256 → Byte) (locks : List Lock)
    (evs : List Event) (s : State) (outs : List Out) (ksym : Nat) (str : List Byte)
    (hq : readpw env stack locks evs = (s, outs))
    (hk1 : normalize ksym ≠ XK_Return) (hk2 : normalize ksym ≠ XK_Escape)
    (hk3 : normalize ksym ≠ XK_BackSpace) (hi : ignored (normalize ksym) = false)
    (hnum : 1 ≤ lookupNum str) :
    (iscntrl ((lookupBuf str).headD 0) = false →
        ((body env s (Event.keyPress ksym str)).1.len = s.len + lookupNum str ↔
          s.len + lookupNum str < 256)) ∧
      (iscntrl ((lookupBuf str).headD 0) = false → s.len + lookupNum str < 256 →
        (body env s (Event.keyPress ksym str)).1.len = s.len + lookupNum str ∧
          (body env s (Event.keyPress ksym str)).1.passwd.take (s.len + lookupNum str) =
            s.passwd.take s.len ++ str.take 32) ∧
      (iscntrl ((lookupBuf str).headD 0) = true ∨ ¬ (s.len + lookupNum str < 256) →
        (body env s (Event.keyPress ksym str)).1.len = s.len ∧
          (body env s (Event.keyPress ksym str)).1.passwd = s.passwd) := by
  have hwf : WF s := by
    have := readpw_inv env stack locks evs
    rw [hq] at this
    exact this
  have hb : body env s (Event.keyPress ksym str) = onKeyPress env s ksym str := rfl
  obtain ⟨h1, h2, _⟩ := onKeyPress_handled env s ksym str hi
  rw [switchKey_other env s _ str hk1 hk2 hk3] at h1 h2
  rw [hb, h1, h2]
  obtain ⟨t1, t2⟩ := onOther_take s str hwf
  have hfits := accepts_fits s.len str hwf.2
  have hdrop : iscntrl ((lookupBuf str).headD 0) = true ∨ ¬ (s.len + lookupNum str < 256) →
      onOther s str = (s, []) := by
    intro h
    apply t2
    cases ha : accepts s.len str with
    | false => rfl
    | true =>
      obtain ⟨_, a2, a3⟩ := hfits.mp ha
      rcases h with h | h
      · rw [a2] at h; cases h
      · exact absurd a3 h
  refine ⟨?_, ?_, ?_⟩
  · intro hc
    constructor
    · intro hlen
      by_contra hno
      rw [hdrop (Or.inr hno)] at hlen
      dsimp only at hlen
      omega
    · intro hroom
      exact (t1 (hfits.mpr ⟨by omega, hc, hroom⟩)).1
  · intro hc hroom
    obtain ⟨r1, r2⟩ := t1 (hfits.mpr ⟨by omega, hc, hroom⟩)
    rw [r1] at r2
    exact ⟨r1, r2⟩
  · intro h
    rw [hdrop h]
    exact ⟨rfl, rfl⟩

theorem typedText_snoc (evs : List Event) (ev : Event) :
    typedText (evs ++ [ev]) = typedStep (typedText evs) ev := by
  unfold typedText
  rw [List.foldl_append]
  rfl

/-- One turn of the loop keeps the first `len` bytes of the buffer equal to
the text typed. -/
theorem body_refines (env : Env) (s : State) (ev : Event) (hwf : WF s) :
    (body env s ev).1.passwd.take (body env s ev).1.len =
      typedStep (s.passwd.take s.len) ev := by
  cases ev with
  | keyPress ksym str =>
    have hb : body env s (Event.keyPress ksym str) = onKeyPress env s ksym str := rfl
    rw [hb]
    unfold typedStep
    dsimp only
    by_cases hi : ignored (normalize ksym) = true
    · rw [onKeyPress_ignored env s ksym str hi, if_pos hi]
    · have hi' : ignored (normalize ksym) = false := by simpa using hi
      obtain ⟨h1, h2, _⟩ := onKeyPress_handled env s ksym str hi'
      rw [h1, h2, if_neg hi]
      by_cases c1 : normalize ksym = XK_Return
      · rw [if_pos (Or.inl c1), c1, switchKey_Return]
        rfl
      by_cases c2 : normalize ksym = XK_Escape
      · rw [if_pos (Or.inr c2), c2, switchKey_Escape]
        rfl
      rw [if_neg (fun h => h.elim c1 c2)]
      by_cases c3 : normalize ksym = XK_BackSpace
      · rw [if_pos c3, c3, switchKey_BackSpace]
        exact onBackSpace_take s hwf
      rw [if_neg c3, switchKey_other env s _ str c1 c2 c3, WF_take_length s hwf,
        ← lookupBuf_head]
      obtain ⟨t1, t2⟩ := onOther_take s str hwf
      have hfits := accepts_fits s.len str hwf.2
      cases ha : accepts s.len str with
      | true =>
        obtain ⟨a1, a2, a3⟩ := hfits.mp ha
        rw [if_pos ⟨Nat.pos_of_ne_zero a1, a2, a3⟩]
        exact (t1 ha).2
      | false =>
        have hno : ¬ (1 ≤ lookupNum str ∧ iscntrl ((lookupBuf str).headD 0) = false ∧
            s.len + lookupNum str < 256) := by
          rintro ⟨b1, b2, b3⟩
          have := hfits.mpr ⟨by omega, b2, b3⟩
          rw [ha] at this
          cases this
        rw [if_neg hno, t2 ha]
  | keyRelease => rfl
  | screenChange window rotation width height =>
    unfold body typedStep
    dsimp only
    split_ifs <;> rfl
  | other => rfl

theorem readpw_running_of_snoc (env : Env) (stack : Fin 256 → Byte) (locks : List Lock)
    (evs : List Event) (ev : Event)
    (hr : (readpw env stack locks (evs ++ [ev])).1.running = true) :
    (readpw env stack locks evs).1.running = true := by
  by_contra hno
  unfold readpw at hr hno
  rw [loop_append] at hr
  unfold loop at hr
  rw [if_neg hno] at hr
  exact hno hr

theorem readpw_refines (env : Env) (stack : Fin 256 → Byte) (locks : List Lock)
    (evs : List Event) :
    (readpw env stack locks evs).1.running = true →
      (readpw env stack locks evs).1.passwd.take (readpw env stack locks evs).1.len =
        typedText evs := by
  induction evs using List.reverseRecOn with
  | nil => intro _; rfl
  | append_singleton evs ev ih =>
    intro hr
    have hprev := readpw_running_of_snoc env stack locks evs ev hr
    rw [readpw_snoc env stack locks evs ev hprev, typedText_snoc, ← ih hprev]
    exact body_refines env _ ev (readpw_inv env stack locks evs)

/-- C10: in every state the loop has reached and runs in, the first `len`
bytes of `passwd` are the text typed since the last Return or Escape (or the
start): bytes of accepted printable inputs in order, less one byte for each
BackSpace on a non-empty text. So a Return in that state hands `crypt` a buffer
that holds this text followed by the terminator, that is the C string of the
text (the text itself when it has no NUL byte), with nothing left from earlier
input. -/
theorem passwd_refines_typed_text (env : Env) (stack : Fin 256 → Byte) (locks : List Lock)
    (evs : List Event) (s : State) (outs : List Out)
    (hq : readpw env stack locks evs = (s, outs)) (hr : s.running = true) :
    s.passwd.take s.len = typedText evs ∧
      s.len = (typedText evs).length ∧
      (s.passwd.set s.len 0).take (s.len + 1) = typedText evs ++ [0] ∧
      cstr (s.passwd.set s.len 0) = cstr (typedText evs) ∧
      ((∀ b ∈ typedText evs, b ≠ 0) → cstr (s.passwd.set s.len 0) = typedText evs) := by
  have hwf : WF s := by
    have := readpw_inv env stack locks evs
    rw [hq] at this
    exact this
  have href : s.passwd.take s.len = typedText evs := by
    have := readpw_refines env stack locks evs
    rw [hq] at this
    exact this hr
  have hlt : s.len < s.passwd.length := by
    rw [hwf.1]; exact hwf.2
  refine ⟨href, ?_, ?_, ?_, ?_⟩
  · rw [← href]
    exact (WF_take_length s hwf).symm
  · rw [take_succ_set 0 s.passwd s.len hlt, href]
  · rw [cstr_set_zero s.passwd s.len hlt, href]
  · intro hnz
    rw [cstr_set_zero s.passwd s.len hlt, href]
    unfold cstr
    rw [List.takeWhile_eq_self_iff]
    intro b hb
    exact decide_eq_true (hnz b hb)

/-! ## Instances -/

/-- C1, instance: after "a" the loop runs, and the Return ends it, the hash of
"a" being the stored one. -/
theorem readpw_exit_on_match :
    (readpw (demoEnv false) zeroStack [] [keyA]).1.running = true ∧
      (readpw (demoEnv false) zeroStack [] ([keyA] ++ [keyReturn])).1.running = false :=
  ⟨by set_option maxRecDepth 100000 in decide,
    (readpw_exit_iff_match (demoEnv false) zeroStack [] [keyA] keyReturn
      (by set_option maxRecDepth 100000 in decide)).mpr
      ⟨XK_Return, [13], [36, 49], rfl, by decide,
        by set_option maxRecDepth 100000 in decide, rfl⟩⟩

/-- C2, instance: keypad Enter at the start zeroes the buffer. -/
theorem return_escape_zero_buffer_kp_enter :
    normalize XK_KP_Enter = XK_Return ∧
      (body (demoEnv false) (initState zeroStack []) (Event.keyPress XK_KP_Enter [13])).1.len
        = 0 ∧
      (body (demoEnv false) (initState zeroStack [])
        (Event.keyPress XK_KP_Enter [13])).1.passwd = List.replicate 256 0 :=
  ⟨by decide,
    return_escape_zero_buffer (demoEnv false) (initState zeroStack []) XK_KP_Enter [13]
      (Or.inl (by decide))⟩

/-- A notification with rotation 270 degrees and no reflection, width 1080
and height 1920, for the window of a 1920 by 1080 lock resizes it to, and
stores, 1920 by 1080. -/
theorem screenChange_applies_size_rotated :
    (body (demoEnv false) (initState zeroStack [wideLock])
        (Event.screenChange 5 RR_Rotate_270 1080 1920)).2.calls =
        [XCall.XResizeWindow 5 1920 1080, XCall.XClearWindow 5] ∧
      (body (demoEnv false) (initState zeroStack [wideLock])
        (Event.screenChange 5 RR_Rotate_270 1080 1920)).1.locks[0]? =
        some { wideLock with width := 1920, height := 1080 } :=
  (screenChange_applies_size (demoEnv false) (initState zeroStack [wideLock]) 5 RR_Rotate_270
    1080 1920 0 wideLock rfl rfl rfl (fun j _ hj => absurd hj (Nat.not_lt_zero j))).1
    (Or.inr rfl)

/-- C6: the code at a rotation of 90 degrees reported together with a
reflection. The `rotation` field is then `RR_Rotate_90 ||| RR_Reflect_X = 18`
(or `RR_Rotate_270 ||| RR_Reflect_Y = 40`), the equality tests of line 275
fail, and the window of the lock is resized to, and the lock stores, the
reported width 1080 and height 1920 as they are, where a quarter turn is to be
applied with width and height swapped (1920 by 1080), as the same notification
without the reflection bit is. -/
theorem reflected_quarter_turn_not_swapped :
    (RR_Rotate_90 ||| RR_Reflect_X = 18 ∧ RR_Rotate_270 ||| RR_Reflect_Y = 40) ∧
      ((body (demoEnv false) (initState zeroStack [wideLock])
          (Event.screenChange 5 (RR_Rotate_90 ||| RR_Reflect_X) 1080 1920)).2.calls =
          [XCall.XResizeWindow 5 1080 1920, XCall.XClearWindow 5] ∧
        (body (demoEnv false) (initState zeroStack [wideLock])
          (Event.screenChange 5 (RR_Rotate_90 ||| RR_Reflect_X) 1080 1920)).1.locks =
          [{ wideLock with width := 1080, height := 1920 }]) ∧
      ((body (demoEnv false) (initState zeroStack [wideLock])
          (Event.screenChange 5 (RR_Rotate_270 ||| RR_Reflect_Y) 1080 1920)).2.calls =
          [XCall.XResizeWindow 5 1080 1920, XCall.XClearWindow 5] ∧
        (body (demoEnv false) (initState zeroStack [wideLock])
          (Event.screenChange 5 (RR_Rotate_270 ||| RR_Reflect_Y) 1080 1920)).1.locks =
          [{ wideLock with width := 1080, height := 1920 }]) ∧
      ((body (demoEnv false) (initState zeroStack [wideLock])
          (Event.screenChange 5 RR_Rotate_90 1080 1920)).2.calls =
          [XCall.XResizeWindow 5 1920 1080, XCall.XClearWindow 5] ∧
        (body (demoEnv false) (initState zeroStack [wideLock])
          (Event.screenChange 5 RR_Rotate_90 1080 1920)).1.locks =
          [{ wideLock with width := 1920, height := 1080 }]) := by
  decide

/-- C9, counterexample to the claim as stated: after 255 presses of "a" the
length is 255; one more "a" (one byte, not a control character) would bring it
to 256, which does not exceed the capacity, yet the byte is not stored. -/
theorem byte_dropped_at_255 :
    (readpw (demoEnv false) zeroStack [] (List.replicate 255 keyA)).1.len = 255 ∧
      lookupNum [97] = 1 ∧ iscntrl ((lookupBuf [97]).headD 0) = false ∧
      (readpw (demoEnv false) zeroStack [] (List.replicate 255 keyA)).1.len + lookupNum [97]
        ≤ 256 ∧
      (body (demoEnv false) (readpw (demoEnv false) zeroStack [] (List.replicate 255 keyA)).1
        keyA).1.len = 255 := by
  set_option maxRecDepth 1000000 in decide

/-- C9, instance of the amended claim: "a" typed at the start is stored. -/
theorem printable_appended_at_start :
    readpw (demoEnv false) zeroStack [] [] = (initState zeroStack [], []) ∧
      (body (demoEnv false) (initState zeroStack []) (Event.keyPress 0x61 [97])).1.len = 1 :=
  ⟨rfl,
    ((printable_appended_iff_room (demoEnv false) zeroStack [] [] (initState zeroStack []) []
      0x61 [97] rfl (by decide) (by decide) (by decide) (by decide) (by decide)).2.1
      (by decide) (by decide)).1⟩

/-- C10, instance: after "a", "a", BackSpace the buffer holds "a". -/
theorem passwd_refines_typed_text_aab :
    (readpw (demoEnv false) zeroStack [] [keyA, keyA, keyBackSpace]).1.running = true ∧
      (readpw (demoEnv false) zeroStack [] [keyA, keyA, keyBackSpace]).1.passwd.take
          (readpw (demoEnv false) zeroStack [] [keyA, keyA, keyBackSpace]).1.len = [97] :=
  ⟨by set_option maxRecDepth 100000 in decide,
    (passwd_refines_typed_text (demoEnv false) zeroStack [] [keyA, keyA, keyBackSpace]
      (readpw (demoEnv false) zeroStack [] [keyA, keyA, keyBackSpace]).1
      (readpw (demoEnv false) zeroStack [] [keyA, keyA, keyBackSpace]).2 rfl
      (by set_option maxRecDepth 100000 in decide)).1.trans (by decide)⟩

end Slock
